import Mathlib

/-!
Shallow embedding of the admission-control core of `src/_worker.js`
(JMS gateway, Cloudflare Workers edition): the sliding-window
`RateLimiter` class (records map, weighted dual-counter count,
opportunistic cleanup, ban lifecycle), the auth-failure wiring
(`recordAuthFail`, `clearAuthFail`), timing-safe `verifyToken`, and the
request pipeline of the worker `fetch` handler up to the point where it
delegates to the external collaborators (KV blob store, traffic API).

Modelling conventions:
* Timestamps are `Int` milliseconds; each call to `Date.now()` inside one
  handler invocation is the same tick, passed explicitly as `now`.
* `this.records` (a JS `Map` with string keys, unique, insertion-ordered)
  is an association list; `Map.get` reads the first entry with the key,
  `Map.set` replaces the first entry in place or appends, and `Map.delete`
  removes the key's entries (unique on every state a `Map` can reach).
* JavaScript truthiness of `record.bannedUntil` (`null` and `0` are both
  falsy) is modelled explicitly by `banSet`.
* The real-number expression `Math.floor(prevCount * prevWeight + currCount)`
  is computed exactly over `ℚ`, and `Math.floor(elapsed / windowMs)` over
  integers is flooring division `Int.fdiv`.
-/

namespace JmsGateway

/-- One rate-limit record, as created by `RateLimiter.checkAndIncrement` /
`RateLimiter.ban` in `src/_worker.js`. -/
structure Record where
  prevCount : Nat
  currCount : Nat
  windowStart : Int
  bannedUntil : Option Int
deriving Repr, DecidableEq

/-- JS truthiness of the `bannedUntil` field: `null` and `0` are falsy. -/
def banSet : Option Int → Bool
  | none => false
  | some b => b != 0

/-- The condition `record.bannedUntil && now < record.bannedUntil`
(an active ban) of `checkAndIncrement`. -/
def banActive (bu : Option Int) (now : Int) : Bool :=
  match bu with
  | none => false
  | some b => b != 0 && decide (now < b)

/-- The condition `record.bannedUntil && now >= record.bannedUntil`
(a set-but-expired ban) of `checkAndIncrement`. -/
def banExpiredSet (bu : Option Int) (now : Int) : Bool :=
  match bu with
  | none => false
  | some b => b != 0 && decide (b ≤ now)

/-- `this.records.get(key)` on the association-list representation. -/
def mapGet : List (String × Record) → String → Option Record
  | [], _ => none
  | kr :: rest, key => if kr.1 = key then some kr.2 else mapGet rest key

/-- `this.records.set(key, record)`: replace the key's entry in place,
or append a fresh entry. -/
def mapSet : List (String × Record) → String → Record → List (String × Record)
  | [], key, r => [(key, r)]
  | kr :: rest, key, r =>
    if kr.1 = key then (key, r) :: rest else kr :: mapSet rest key r

/-- `this.records.delete(key)`: JS `Map` keys are unique, so deleting the
key's entry is, on association lists, dropping every entry with that key. -/
def mapDelete (m : List (String × Record)) (key : String) : List (String × Record) :=
  m.filter (fun kr => kr.1 != key)

/-- The `RateLimiter` instance state: the immutable configuration
(`windowMs`, `maxRequests`) plus the mutable `records` map and the
cleanup gate `lastCleanup`. -/
structure RateLimiter where
  windowMs : Nat
  maxRequests : Nat
  records : List (String × Record)
  lastCleanup : Int
deriving Repr, DecidableEq

/-- `this.cleanupInterval = 5 * 60 * 1000` (clean up every 5 minutes). -/
def cleanupInterval : Int := 5 * 60 * 1000

/-- The per-record deletion test of `RateLimiter._cleanup`:
`record.bannedUntil ? now >= bannedUntil && now - windowStart >= windowMs
: now - windowStart >= windowMs * 2`. -/
def recordExpired (windowMs : Nat) (now : Int) (r : Record) : Bool :=
  if banSet r.bannedUntil then
    decide (r.bannedUntil.getD 0 ≤ now) &&
      decide ((windowMs : Int) ≤ now - r.windowStart)
  else
    decide ((windowMs : Int) * 2 ≤ now - r.windowStart)

/-- `RateLimiter._cleanup`: runs at most once per `cleanupInterval`,
then deletes every record satisfying `recordExpired`. -/
def RateLimiter._cleanup (l : RateLimiter) (now : Int) : RateLimiter :=
  if now - l.lastCleanup < cleanupInterval then l
  else
    { l with
      lastCleanup := now
      records := l.records.filter (fun kr => !recordExpired l.windowMs now kr.2) }

/-- `RateLimiter._getWeightedCount`: within the current window the weighted
count is `Math.floor(prevCount * max(0, 1 - elapsed/windowMs) + currCount)`
(computed exactly over `ℚ`); once the window has fully expired it is `0`. -/
def RateLimiter._getWeightedCount (l : RateLimiter) (record : Record) (now : Int) : Int :=
  let elapsed : Int := now - record.windowStart
  if elapsed < (l.windowMs : Int) then
    let prevWeight : ℚ := max 0 (1 - (elapsed : ℚ) / (l.windowMs : ℚ))
    ⌊(record.prevCount : ℚ) * prevWeight + (record.currCount : ℚ)⌋
  else
    0

/-- The window-sliding block of `checkAndIncrement` (`if (elapsed >=
this.windowMs)`): when at least one full window has elapsed, compute
`windowsToSlide = Math.floor(elapsed / windowMs)`; if it is exactly `1`
the current count becomes the previous count (current resets), otherwise
both counters reset; `windowStart` advances by `windowsToSlide * windowMs`. -/
def slideIfExpired (windowMs : Nat) (record1 : Record) (now : Int) : Record :=
  let elapsed : Int := now - record1.windowStart
  if (windowMs : Int) ≤ elapsed then
    let windowsToSlide : Int := elapsed.fdiv (windowMs : Int)
    let slid :=
      if windowsToSlide = 1 then
        { record1 with prevCount := record1.currCount, currCount := 0 }
      else
        { record1 with prevCount := 0, currCount := 0 }
    { slid with windowStart := slid.windowStart + windowsToSlide * (windowMs : Int) }
  else record1

/-- `RateLimiter.checkAndIncrement`: opportunistic cleanup, lazy record
creation, ban short-circuit, lazy ban expiry, window sliding, the
weighted-count admission test, and the increment. The in-place JS object
mutations mean the slid/ban-cleared record is persisted even on the
denied path. -/
def RateLimiter.checkAndIncrement (l0 : RateLimiter) (key : String) (now : Int) :
    Bool × RateLimiter :=
  let l := l0._cleanup now
  match mapGet l.records key with
  | none =>
    let fresh : Record :=
      { prevCount := 0, currCount := 1, windowStart := now, bannedUntil := none }
    (true, { l with records := mapSet l.records key fresh })
  | some record0 =>
    if banActive record0.bannedUntil now then
      (false, l)
    else
      let record1 :=
        if banExpiredSet record0.bannedUntil now then
          { record0 with bannedUntil := none }
        else record0
      let record2 := slideIfExpired l.windowMs record1 now
      let weightedCount := l._getWeightedCount record2 now
      if (l.maxRequests : Int) ≤ weightedCount then
        (false, { l with records := mapSet l.records key record2 })
      else
        let bumped := { record2 with currCount := record2.currCount + 1 }
        (true, { l with records := mapSet l.records key bumped })

/-- `RateLimiter.getRecord`. -/
def RateLimiter.getRecord (l : RateLimiter) (key : String) : Option Record :=
  mapGet l.records key

/-- `RateLimiter.ban`: set `bannedUntil = now + durationMs` unconditionally,
creating a zero-count record when the key has none. -/
def RateLimiter.ban (l : RateLimiter) (key : String) (durationMs : Int) (now : Int) :
    RateLimiter :=
  let record : Record :=
    match mapGet l.records key with
    | none => { prevCount := 0, currCount := 0, windowStart := now, bannedUntil := none }
    | some r => r
  { l with records := mapSet l.records key { record with bannedUntil := some (now + durationMs) } }

/-- `RateLimiter.isBanned`: a record exists, `bannedUntil` is truthy, and
`now < bannedUntil`. -/
def RateLimiter.isBanned (l : RateLimiter) (key : String) (now : Int) : Bool :=
  match mapGet l.records key with
  | none => false
  | some r => banActive r.bannedUntil now

/-- `RateLimiter.clear`: unconditional removal of the key's record. -/
def RateLimiter.clear (l : RateLimiter) (key : String) : RateLimiter :=
  { l with records := mapDelete l.records key }

/-- `AUTH_FAIL_BAN_DURATION = 30 * 60 * 1000` (30-minute ban). -/
def AUTH_FAIL_BAN_DURATION : Int := 30 * 60 * 1000

/-- `recordAuthFail`: count one auth failure; when the limiter denies, set
the 30-minute ban unless a ban is already set, truthy and still active
(`!record || !record.bannedUntil || now >= record.bannedUntil`). -/
def recordAuthFail (l : RateLimiter) (ip : String) (now : Int) : RateLimiter :=
  let res := l.checkAndIncrement ip now
  let l1 := res.2
  if res.1 then l1
  else
    let shouldBan : Bool :=
      match l1.getRecord ip with
      | none => true
      | some r =>
        match r.bannedUntil with
        | none => true
        | some b => b == 0 || decide (b ≤ now)
    if shouldBan then l1.ban ip AUTH_FAIL_BAN_DURATION now else l1

/-- UTF-8 encoding of one unicode scalar value, the byte sequence
`TextEncoder().encode` produces for it. -/
def utf8Bytes (c : Char) : List Nat :=
  let n := c.toNat
  if n < 128 then [n]
  else if n < 2048 then [192 + n / 64, 128 + n % 64]
  else if n < 65536 then [224 + n / 4096, 128 + n / 64 % 64, 128 + n % 64]
  else [240 + n / 262144, 128 + n / 4096 % 64, 128 + n / 64 % 64, 128 + n % 64]

/-- `new TextEncoder().encode(s)`: the UTF-8 bytes of a string. -/
def strBytes (s : String) : List Nat :=
  s.data.flatMap utf8Bytes

/-- `verifyToken`: fail closed when either side is absent/empty (falsy) or
the byte lengths differ; otherwise accumulate `result |= a[i] ^ b[i]` over
all positions and accept exactly when the accumulator is `0`. -/
def verifyToken (token : Option String) (envToken : Option String) : Bool :=
  match envToken with
  | none => false
  | some et =>
    if et = "" then false
    else
      match token with
      | none => false
      | some t =>
        if t = "" then false
        else
          let a := strBytes t
          let b := strBytes et
          if a.length ≠ b.length then false
          else (a.zip b).foldl (fun acc p => acc ||| (p.1 ^^^ p.2)) 0 == 0

/-- The environment bindings the `fetch` handler consults. `ACCESS_TOKEN`
is a string binding (absent or empty is falsy); `YAML_STORAGE` only has
its presence tested before fulfillment. -/
structure Env where
  ACCESS_TOKEN : Option String
  hasYamlStorage : Bool
deriving Repr, DecidableEq

/-- The module-level mutable state of the worker: the two independent
limiter instances: the traffic limiter (60 s window, max 30) and the
auth-failure limiter (15 min window, max 5). -/
structure GatewayState where
  rateLimiter : RateLimiter
  authFailLimiter : RateLimiter
deriving Repr, DecidableEq

/-- The inbound request data the admission pipeline reads. -/
structure Request where
  cfConnectingIP : Option String
  pathname : String
  token : Option String
deriving Repr, DecidableEq

/-- The terminal response classes of the `fetch` handler. `fulfill` stands
for reaching step 5 (KV read, traffic fetch, response assembly), whose
outcome depends only on the external collaborators. -/
inductive Outcome where
  | rateLimited
  | authBanned
  | notConfigured
  | unauthorized
  | notFound
  | fulfill
deriving Repr, DecidableEq

/-- `request.headers.get("CF-Connecting-IP") || "unknown"`: an absent or
empty (falsy) header yields the literal client key `"unknown"`. -/
def clientIPOf (hdr : Option String) : String :=
  match hdr with
  | none => "unknown"
  | some s => if s = "" then "unknown" else s

/-- Truthiness of a string binding: present and non-empty. -/
def envStrTruthy : Option String → Bool
  | none => false
  | some s => s != ""

/-- The worker `fetch` handler, steps 1-4 and routing: traffic throttle,
auth-failure ban check, environment check, token verification (with
`recordAuthFail` on failure and `clearAuthFail` on success), and the
`/subscribe` routing check. -/
def handleFetch (st : GatewayState) (env : Env) (req : Request) (now : Int) :
    Outcome × GatewayState :=
  let clientIP := clientIPOf req.cfConnectingIP
  let rcheck := st.rateLimiter.checkAndIncrement clientIP now
  let st1 : GatewayState := { st with rateLimiter := rcheck.2 }
  if !rcheck.1 then
    (.rateLimited, st1)
  else if st1.authFailLimiter.isBanned clientIP now then
    (.authBanned, st1)
  else if !envStrTruthy env.ACCESS_TOKEN || !env.hasYamlStorage then
    (.notConfigured, st1)
  else if !verifyToken req.token env.ACCESS_TOKEN then
    (.unauthorized,
      { st1 with authFailLimiter := recordAuthFail st1.authFailLimiter clientIP now })
  else
    let st2 : GatewayState := { st1 with authFailLimiter := st1.authFailLimiter.clear clientIP }
    if req.pathname ≠ "/subscribe" then (.notFound, st2)
    else (.fulfill, st2)

/-- Iterated `checkAndIncrement` calls for one key at the given times. -/
def runCalls (l : RateLimiter) (key : String) : List Int → List Bool × RateLimiter
  | [] => ([], l)
  | t :: ts =>
    let r := l.checkAndIncrement key t
    let rest := runCalls r.2 key ts
    (r.1 :: rest.1, rest.2)

/-- A request together with its arrival time. -/
structure ReqAt where
  req : Request
  now : Int
deriving Repr, DecidableEq

/-- Iterated `fetch` invocations against the shared limiter state. -/
def runRequests (st : GatewayState) (env : Env) : List ReqAt → List Outcome × GatewayState
  | [] => ([], st)
  | r :: rs =>
    let o := handleFetch st env r.req r.now
    let rest := runRequests o.2 env rs
    (o.1 :: rest.1, rest.2)

/-- The admission pattern of an in-window call sequence: starting from a
current count `c`, a call is allowed while `c < M` and each allowed call
increments the count. -/
def allowSeq (M : Nat) : Nat → Nat → List Bool
  | _, 0 => []
  | c, n + 1 => decide (c < M) :: allowSeq M (if c < M then c + 1 else c) n

/-- The current count after an in-window call sequence (see `allowSeq`). -/
def cAfter (M : Nat) : Nat → Nat → Nat
  | c, 0 => c
  | c, n + 1 => cAfter M (if c < M then c + 1 else c) n

/-- The garbage-collection eligibility rule as the spec words it: the
record carries an active or expired ban — `bannedUntil` is set either way —
and at least one full window has elapsed since `windowStart`, or it carries
no ban and at least two full window durations have elapsed. Stated from the
spec for comparison against the code's `recordExpired` test. -/
def gcEligibleSpec (windowMs : Nat) (now : Int) (r : Record) : Prop :=
  (r.bannedUntil ≠ none ∧ (windowMs : Int) ≤ now - r.windowStart) ∨
  (r.bannedUntil = none ∧ (windowMs : Int) * 2 ≤ now - r.windowStart)

/-- Invariant of a key that has only ever been admitted: every entry the
records map holds for it is unbanned, its counters sum to at most the
number of calls made so far, and its window start is no later than the
last call time. -/
def TrafficInv (l : RateLimiter) (key : String) (k : Nat) (t : Int) : Prop :=
  ∀ r : Record, (key, r) ∈ l.records →
    r.bannedUntil = none ∧ r.prevCount + r.currCount ≤ k ∧ r.windowStart ≤ t

/-! ### Association-list map lemmas -/

theorem mapGet_mapSet_self (m : List (String × Record)) (key : String) (r : Record) :
    mapGet (mapSet m key r) key = some r := by
  induction m with
  | nil => simp [mapSet, mapGet]
  | cons kr rest ih =>
    by_cases h : kr.1 = key
    · simp [mapSet, mapGet, h]
    · simp [mapSet, mapGet, h, ih]

theorem mapSet_mapSet (m : List (String × Record)) (key : String) (a b : Record) :
    mapSet (mapSet m key a) key b = mapSet m key b := by
  induction m with
  | nil => simp [mapSet]
  | cons kr rest ih =>
    by_cases h : kr.1 = key
    · simp [mapSet, h]
    · simp [mapSet, h, ih]

theorem mapGet_mapDelete (m : List (String × Record)) (key : String) :
    mapGet (mapDelete m key) key = none := by
  induction m with
  | nil => simp [mapDelete, mapGet]
  | cons kr rest ih =>
    by_cases h : kr.1 = key
    · simpa [mapDelete, h] using ih
    · simpa [mapDelete, mapGet, h] using ih

theorem mapGet_filter_none (m : List (String × Record)) (key : String)
    (p : String × Record → Bool) (h : mapGet m key = none) :
    mapGet (m.filter p) key = none := by
  induction m with
  | nil => simp [mapGet]
  | cons kr rest ih =>
    by_cases hk : kr.1 = key
    · simp [mapGet, hk] at h
    · simp only [mapGet, hk, if_false] at h
      by_cases hp : p kr
      · simp [List.filter, hp, mapGet, hk, ih h]
      · simp [List.filter, hp, ih h]

theorem mapGet_filter_some (m : List (String × Record)) (key : String)
    (p : String × Record → Bool) (r : Record) (h : mapGet m key = some r)
    (hp : p (key, r) = true) :
    mapGet (m.filter p) key = some r := by
  induction m with
  | nil => simp [mapGet] at h
  | cons kr rest ih =>
    by_cases hk : kr.1 = key
    · simp only [mapGet, hk, if_true] at h
      have hkr : kr = (key, r) := by
        cases kr; cases h; cases hk; rfl
      subst hkr
      simp [List.filter, hp, mapGet]
    · simp only [mapGet, hk, if_false] at h
      by_cases hq : p kr
      · simp [List.filter, hq, mapGet, hk, ih h]
      · simp [List.filter, hq, ih h]

theorem mapGet_mem (m : List (String × Record)) (key : String) (r : Record)
    (h : mapGet m key = some r) : (key, r) ∈ m := by
  induction m with
  | nil => simp [mapGet] at h
  | cons kr rest ih =>
    by_cases hk : kr.1 = key
    · simp only [mapGet, hk, if_true] at h
      have hkr : kr = (key, r) := by
        cases kr; cases h; cases hk; rfl
      subst hkr
      exact List.mem_cons_self _ _
    · simp only [mapGet, hk, if_false] at h
      exact List.mem_cons_of_mem _ (ih h)

theorem mem_mapSet (m : List (String × Record)) (key : String) (r : Record)
    (kr : String × Record) (h : kr ∈ mapSet m key r) :
    kr = (key, r) ∨ kr ∈ m := by
  induction m with
  | nil => simpa [mapSet] using h
  | cons hd rest ih =>
    by_cases hk : hd.1 = key
    · simp only [mapSet, hk, if_true, List.mem_cons] at h
      rcases h with h | h
      · exact Or.inl h
      · exact Or.inr (List.mem_cons_of_mem _ h)
    · simp only [mapSet, hk, if_false, List.mem_cons] at h
      rcases h with h | h
      · subst h
        exact Or.inr (List.mem_cons_self _ _)
      · rcases ih h with h' | h'
        · exact Or.inl h'
        · exact Or.inr (List.mem_cons_of_mem _ h')

/-! ### Cleanup lemmas -/

@[simp] theorem cleanup_windowMs (l : RateLimiter) (now : Int) :
    (l._cleanup now).windowMs = l.windowMs := by
  unfold RateLimiter._cleanup
  split <;> rfl

@[simp] theorem cleanup_maxRequests (l : RateLimiter) (now : Int) :
    (l._cleanup now).maxRequests = l.maxRequests := by
  unfold RateLimiter._cleanup
  split <;> rfl

theorem mapGet_cleanup_none (l : RateLimiter) (key : String) (now : Int)
    (h : mapGet l.records key = none) :
    mapGet (l._cleanup now).records key = none := by
  unfold RateLimiter._cleanup
  split
  · exact h
  · exact mapGet_filter_none _ _ _ h

theorem mapGet_cleanup_keep (l : RateLimiter) (key : String) (now : Int) (r : Record)
    (h : mapGet l.records key = some r)
    (hexp : recordExpired l.windowMs now r = false) :
    mapGet (l._cleanup now).records key = some r := by
  unfold RateLimiter._cleanup
  split
  · exact h
  · exact mapGet_filter_some _ _ _ _ h (by simp [hexp])

theorem mem_cleanup (l : RateLimiter) (now : Int) (kr : String × Record)
    (h : kr ∈ (l._cleanup now).records) : kr ∈ l.records := by
  unfold RateLimiter._cleanup at h
  split at h
  · exact h
  · exact List.mem_of_mem_filter h

/-! ### Weighted-count lemmas -/

theorem getWeightedCount_prev_zero (l : RateLimiter) (r : Record) (now : Int)
    (hp : r.prevCount = 0) (h2 : now - r.windowStart < (l.windowMs : Int)) :
    l._getWeightedCount r now = (r.currCount : Int) := by
  unfold RateLimiter._getWeightedCount
  rw [if_pos h2]
  simp [hp]

theorem getWeightedCount_le_sum (l : RateLimiter) (r : Record) (now : Int)
    (h0 : 0 ≤ now - r.windowStart) :
    l._getWeightedCount r now ≤ (r.prevCount : Int) + (r.currCount : Int) := by
  unfold RateLimiter._getWeightedCount
  simp only []
  split
  · next hlt =>
    have hw : (0 : ℚ) < (l.windowMs : ℚ) := by
      have : (0 : Int) < (l.windowMs : Int) := by omega
      exact_mod_cast this
    have hpw : max 0 (1 - ((now - r.windowStart : Int) : ℚ) / (l.windowMs : ℚ)) ≤ 1 := by
      have he : (0 : ℚ) ≤ ((now - r.windowStart : Int) : ℚ) := by exact_mod_cast h0
      have : (0 : ℚ) ≤ ((now - r.windowStart : Int) : ℚ) / (l.windowMs : ℚ) :=
        div_nonneg he (le_of_lt hw)
      apply max_le (by norm_num)
      linarith
    have hmul : (r.prevCount : ℚ) *
        max 0 (1 - ((now - r.windowStart : Int) : ℚ) / (l.windowMs : ℚ)) +
        (r.currCount : ℚ) ≤ (r.prevCount : ℚ) + (r.currCount : ℚ) := by
      have := mul_le_of_le_one_right (a := (r.prevCount : ℚ)) (Nat.cast_nonneg _) hpw
      linarith
    calc ⌊(r.prevCount : ℚ) *
          max 0 (1 - ((now - r.windowStart : Int) : ℚ) / (l.windowMs : ℚ)) +
          (r.currCount : ℚ)⌋
        ≤ ⌊(r.prevCount : ℚ) + (r.currCount : ℚ)⌋ := Int.floor_le_floor hmul
      _ = (r.prevCount : Int) + (r.currCount : Int) := by
          rw [show (r.prevCount : ℚ) + (r.currCount : ℚ) =
              (((r.prevCount : Int) + (r.currCount : Int) : Int) : ℚ) by push_cast; ring]
          exact Int.floor_intCast _
  · positivity

/-! ### Slide lemmas -/

theorem slideIfExpired_id_of_lt (w : Nat) (r : Record) (now : Int)
    (h : ¬ ((w : Int) ≤ now - r.windowStart)) : slideIfExpired w r now = r := by
  unfold slideIfExpired
  simp only []
  rw [if_neg h]

theorem slideIfExpired_bannedUntil (w : Nat) (r : Record) (now : Int) :
    (slideIfExpired w r now).bannedUntil = r.bannedUntil := by
  unfold slideIfExpired
  simp only []
  split
  · split <;> rfl
  · rfl

theorem slideIfExpired_sum_le (w : Nat) (r : Record) (now : Int) :
    (slideIfExpired w r now).prevCount + (slideIfExpired w r now).currCount ≤
      r.prevCount + r.currCount := by
  unfold slideIfExpired
  simp only []
  split
  · split <;> simp
  · omega

theorem slideIfExpired_windowStart_le (w : Nat) (r : Record) (now : Int)
    (hwpos : 0 < w) (hws : r.windowStart ≤ now) :
    (slideIfExpired w r now).windowStart ≤ now := by
  unfold slideIfExpired
  simp only []
  split
  · next hle =>
    have hw : (0 : Int) < (w : Int) := by exact_mod_cast hwpos
    have hfd : (now - r.windowStart).fdiv (w : Int) = (now - r.windowStart) / (w : Int) :=
      Int.fdiv_eq_ediv _ (le_of_lt hw)
    have hmul : (now - r.windowStart) / (w : Int) * (w : Int) ≤ now - r.windowStart := by
      rw [mul_comm]
      have h1 := Int.ediv_add_emod (now - r.windowStart) (w : Int)
      have h2 := Int.emod_nonneg (now - r.windowStart) (by omega : (w : Int) ≠ 0)
      linarith
    split <;> simp only [] <;> rw [hfd] <;> linarith
  · exact hws

/-! ### Step lemmas for `checkAndIncrement` -/

theorem checkAndIncrement_fresh (l : RateLimiter) (key : String) (now : Int)
    (h : mapGet l.records key = none) :
    l.checkAndIncrement key now =
      (true, { l._cleanup now with records := mapSet (l._cleanup now).records key ⟨0, 1, now, none⟩ }) := by
  unfold RateLimiter.checkAndIncrement
  simp only []
  rw [mapGet_cleanup_none l key now h]

theorem checkAndIncrement_step_in_window (l : RateLimiter) (key : String)
    (c : Nat) (t0 now : Int)
    (hrec : mapGet l.records key = some ⟨0, c, t0, none⟩)
    (h2 : now < t0 + (l.windowMs : Int)) :
    l.checkAndIncrement key now =
      (decide (c < l.maxRequests),
        { l._cleanup now with records := mapSet (l._cleanup now).records key ⟨0, if c < l.maxRequests then c + 1 else c, t0, none⟩ }) := by
  have hexp : recordExpired l.windowMs now ⟨0, c, t0, none⟩ = false := by
    simp [recordExpired, banSet]
    omega
  have hget := mapGet_cleanup_keep l key now _ hrec hexp
  have hw2 : ¬ ((((l._cleanup now).windowMs : Int)) ≤ now - t0) := by
    rw [cleanup_windowMs]
    omega
  have hweighted : (l._cleanup now)._getWeightedCount ⟨0, c, t0, none⟩ now = (c : Int) :=
    getWeightedCount_prev_zero _ _ _ rfl
      (by rw [cleanup_windowMs]; show now - t0 < (l.windowMs : Int); omega)
  unfold RateLimiter.checkAndIncrement
  simp only []
  rw [hget]
  simp only [banActive, banExpiredSet, Bool.false_eq_true, if_false]
  rw [slideIfExpired_id_of_lt _ _ _ hw2, hweighted]
  simp only [cleanup_maxRequests]
  by_cases hc : c < l.maxRequests
  · rw [if_neg (by exact_mod_cast Nat.not_le.mpr hc), if_pos hc]
    simp [hc]
  · rw [if_pos (by exact_mod_cast Nat.not_lt.mp hc), if_neg hc]
    simp [hc]

/-- A key whose record is `⟨0, c, t0, none⟩` and whose calls all arrive
before `t0 + windowMs` follows the `allowSeq` admission pattern: each call
is allowed while the count is below `maxRequests`. -/
theorem runCalls_in_window (key : String) (t0 : Int) :
    ∀ (ts : List Int) (l : RateLimiter) (c : Nat),
      mapGet l.records key = some ⟨0, c, t0, none⟩ →
      (∀ t ∈ ts, t < t0 + (l.windowMs : Int)) →
      (runCalls l key ts).1 = allowSeq l.maxRequests c ts.length ∧
      mapGet (runCalls l key ts).2.records key =
        some ⟨0, cAfter l.maxRequests c ts.length, t0, none⟩ ∧
      (runCalls l key ts).2.windowMs = l.windowMs ∧
      (runCalls l key ts).2.maxRequests = l.maxRequests := by
  intro ts
  induction ts with
  | nil =>
    intro l c hrec hts
    exact ⟨rfl, hrec, rfl, rfl⟩
  | cons t ts ih =>
    intro l c hrec hts
    have hstep := checkAndIncrement_step_in_window l key c t0 t hrec (hts t (by simp))
    have hb : (l.checkAndIncrement key t).1 = decide (c < l.maxRequests) := by rw [hstep]
    have hwms : (l.checkAndIncrement key t).2.windowMs = l.windowMs := by
      rw [hstep]; exact cleanup_windowMs l t
    have hmaxr : (l.checkAndIncrement key t).2.maxRequests = l.maxRequests := by
      rw [hstep]; exact cleanup_maxRequests l t
    have hrec1 : mapGet (l.checkAndIncrement key t).2.records key =
        some ⟨0, if c < l.maxRequests then c + 1 else c, t0, none⟩ := by
      rw [hstep]; exact mapGet_mapSet_self _ _ _
    obtain ⟨ih1, ih2, ih3, ih4⟩ :=
      ih (l.checkAndIncrement key t).2 (if c < l.maxRequests then c + 1 else c) hrec1
        (fun t' ht' => by rw [hwms]; exact hts t' (List.mem_cons_of_mem _ ht'))
    refine ⟨?_, ?_, ?_, ?_⟩
    · show (l.checkAndIncrement key t).1 :: (runCalls (l.checkAndIncrement key t).2 key ts).1 =
        allowSeq l.maxRequests c (ts.length + 1)
      rw [hb, ih1, hmaxr]
      rfl
    · show mapGet (runCalls (l.checkAndIncrement key t).2 key ts).2.records key =
        some ⟨0, cAfter l.maxRequests c (ts.length + 1), t0, none⟩
      rw [ih2, hmaxr]
      rfl
    · show (runCalls (l.checkAndIncrement key t).2 key ts).2.windowMs = l.windowMs
      rw [ih3, hwms]
    · show (runCalls (l.checkAndIncrement key t).2 key ts).2.maxRequests = l.maxRequests
      rw [ih4, hmaxr]

theorem trafficInv_mono {l : RateLimiter} {key : String} {k k' : Nat} {t t' : Int}
    (hk : k ≤ k') (ht : t ≤ t') (h : TrafficInv l key k t) : TrafficInv l key k' t' :=
  fun r hr => by
    obtain ⟨h1, h2, h3⟩ := h r hr
    exact ⟨h1, le_trans h2 hk, le_trans h3 ht⟩

theorem trafficInv_cleanup {l : RateLimiter} {key : String} {k : Nat} {t : Int} (now : Int)
    (h : TrafficInv l key k t) : TrafficInv (l._cleanup now) key k t :=
  fun r hr => h r (mem_cleanup l now (key, r) hr)

/-- One `checkAndIncrement` call for a key that satisfies `TrafficInv` with
fewer prior calls than `maxRequests` is always admitted, and the invariant
is maintained with one more call. -/
theorem checkAndIncrement_traffic_step (l : RateLimiter) (key : String) (k : Nat) (t now : Int)
    (hw : 0 < l.windowMs) (hk : k < l.maxRequests)
    (hInv : TrafficInv l key k t) (ht : t ≤ now) :
    (l.checkAndIncrement key now).1 = true ∧
    TrafficInv (l.checkAndIncrement key now).2 key (k + 1) now ∧
    (l.checkAndIncrement key now).2.windowMs = l.windowMs ∧
    (l.checkAndIncrement key now).2.maxRequests = l.maxRequests := by
  have hInv1 : TrafficInv (l._cleanup now) key k t := trafficInv_cleanup now hInv
  unfold RateLimiter.checkAndIncrement
  simp only []
  cases hget : mapGet (l._cleanup now).records key with
  | none =>
    refine ⟨rfl, ?_, cleanup_windowMs l now, cleanup_maxRequests l now⟩
    intro r hr
    rcases mem_mapSet _ _ _ _ hr with h | h
    · have hr' : r = ⟨0, 1, now, none⟩ := by
        simpa using congrArg Prod.snd h
      rw [hr']
      refine ⟨rfl, ?_, le_refl _⟩
      show 0 + 1 ≤ k + 1
      omega
    · obtain ⟨a, b, c⟩ := hInv1 r h
      exact ⟨a, by omega, by omega⟩
  | some r0 =>
    have hr0mem : (key, r0) ∈ (l._cleanup now).records := mapGet_mem _ _ _ hget
    obtain ⟨hbu, hsum, hws⟩ := hInv1 r0 hr0mem
    dsimp only
    rw [hbu]
    simp only [banActive, banExpiredSet, Bool.false_eq_true, if_false]
    have hwclean : 0 < (l._cleanup now).windowMs := by rw [cleanup_windowMs]; exact hw
    have hsum2 : (slideIfExpired (l._cleanup now).windowMs r0 now).prevCount +
        (slideIfExpired (l._cleanup now).windowMs r0 now).currCount ≤ k :=
      le_trans (slideIfExpired_sum_le _ _ _) hsum
    have hws2 : (slideIfExpired (l._cleanup now).windowMs r0 now).windowStart ≤ now :=
      slideIfExpired_windowStart_le _ _ _ hwclean (le_trans hws ht)
    have hbu2 : (slideIfExpired (l._cleanup now).windowMs r0 now).bannedUntil = none := by
      rw [slideIfExpired_bannedUntil, hbu]
    have hwle := getWeightedCount_le_sum (l._cleanup now)
      (slideIfExpired (l._cleanup now).windowMs r0 now) now (by omega)
    have hcond : ¬ (((l._cleanup now).maxRequests : Int) ≤
        (l._cleanup now)._getWeightedCount (slideIfExpired (l._cleanup now).windowMs r0 now) now) := by
      rw [cleanup_maxRequests]
      have hc1 : ((slideIfExpired (l._cleanup now).windowMs r0 now).prevCount : Int) +
          ((slideIfExpired (l._cleanup now).windowMs r0 now).currCount : Int) ≤ (k : Int) := by
        exact_mod_cast hsum2
      have hc2 : (k : Int) < (l.maxRequests : Int) := by exact_mod_cast hk
      omega
    rw [if_neg hcond]
    refine ⟨rfl, ?_, cleanup_windowMs l now, cleanup_maxRequests l now⟩
    intro r hr
    rcases mem_mapSet _ _ _ _ hr with h | h
    · have hr' : r = { slideIfExpired (l._cleanup now).windowMs r0 now with
        currCount := (slideIfExpired (l._cleanup now).windowMs r0 now).currCount + 1 } := by
        simpa using congrArg Prod.snd h
      rw [hr']
      refine ⟨hbu2, ?_, hws2⟩
      simp only []
      omega
    · obtain ⟨a, b, c⟩ := hInv1 r h
      exact ⟨a, by omega, by omega⟩

/-! ### Admission-pattern arithmetic -/

theorem allowSeq_reach_limit :
    ∀ (n c M : Nat), c + n = M + 1 → c ≤ M →
      allowSeq M c n = List.replicate (M - c) true ++ [false] := by
  intro n
  induction n with
  | zero => intro c M h hc; omega
  | succ n ih =>
    intro c M h hc
    by_cases hlt : c < M
    · have hstep : allowSeq M c (n + 1) = true :: allowSeq M (c + 1) n := by
        simp [allowSeq, hlt]
      rw [hstep, ih (c + 1) M (by omega) (by omega)]
      have hrep : M - c = (M - (c + 1)) + 1 := by omega
      rw [hrep, List.replicate_succ]
      rfl
    · have hcM : c = M := by omega
      have hn : n = 0 := by omega
      subst hcM hn
      simp [allowSeq]

theorem cAfter_reach_limit :
    ∀ (n c M : Nat), c + n = M + 1 → c ≤ M → cAfter M c n = M := by
  intro n
  induction n with
  | zero => intro c M h hc; omega
  | succ n ih =>
    intro c M h hc
    by_cases hlt : c < M
    · have hstep : cAfter M c (n + 1) = cAfter M (c + 1) n := by simp [cAfter, hlt]
      rw [hstep, ih (c + 1) M (by omega) (by omega)]
    · have hcM : c = M := by omega
      have hn : n = 0 := by omega
      subst hcM hn
      simp [cAfter]

@[simp] theorem getWeightedCount_cleanup (l : RateLimiter) (now' now : Int) (r : Record) :
    (l._cleanup now')._getWeightedCount r now = l._getWeightedCount r now := by
  unfold RateLimiter._getWeightedCount
  rw [cleanup_windowMs]

/-- A previously-unseen key receiving `maxRequests + 1` calls, all later
ones strictly within one window of the first, is admitted exactly
`maxRequests` times and then denied. -/
theorem runCalls_fresh_reach_limit (l : RateLimiter) (key : String) (t0 : Int) (ts : List Int)
    (hM : 0 < l.maxRequests) (hnone : mapGet l.records key = none)
    (hlen : ts.length = l.maxRequests)
    (hts : ∀ t ∈ ts, t < t0 + (l.windowMs : Int)) :
    (runCalls l key (t0 :: ts)).1 = List.replicate l.maxRequests true ++ [false] := by
  have hfresh := checkAndIncrement_fresh l key t0 hnone
  have hb : (l.checkAndIncrement key t0).1 = true := by rw [hfresh]
  have hrec1 : mapGet (l.checkAndIncrement key t0).2.records key = some ⟨0, 1, t0, none⟩ := by
    rw [hfresh]; exact mapGet_mapSet_self _ _ _
  have hwms : (l.checkAndIncrement key t0).2.windowMs = l.windowMs := by
    rw [hfresh]; exact cleanup_windowMs l t0
  have hmaxr : (l.checkAndIncrement key t0).2.maxRequests = l.maxRequests := by
    rw [hfresh]; exact cleanup_maxRequests l t0
  obtain ⟨h1, _, _, _⟩ := runCalls_in_window key t0 ts (l.checkAndIncrement key t0).2 1 hrec1
    (fun t htm => by rw [hwms]; exact hts t htm)
  show (l.checkAndIncrement key t0).1 ::
    (runCalls (l.checkAndIncrement key t0).2 key ts).1 = _
  rw [hb, h1, hmaxr, hlen,
    allowSeq_reach_limit l.maxRequests 1 l.maxRequests (by omega) (by omega)]
  obtain ⟨M', hM'⟩ : ∃ M', l.maxRequests = M' + 1 := ⟨l.maxRequests - 1, by omega⟩
  rw [hM']
  simp [List.replicate_succ]

/-- Characterization of `checkAndIncrement` on a key whose (post-cleanup)
record carries no active ban: clear an expired ban, slide the window,
test the weighted count, and increment on admission. -/
theorem checkAndIncrement_not_banned_eq (l : RateLimiter) (key : String) (now : Int)
    (r : Record) (hget : mapGet (l._cleanup now).records key = some r)
    (hact : banActive r.bannedUntil now = false) :
    l.checkAndIncrement key now =
      (let rc := if banExpiredSet r.bannedUntil now then { r with bannedUntil := none } else r
       let r2 := slideIfExpired (l._cleanup now).windowMs rc now
       if ((l._cleanup now).maxRequests : Int) ≤ (l._cleanup now)._getWeightedCount r2 now then
         (false, { l._cleanup now with records := mapSet (l._cleanup now).records key r2 })
       else
         (true, { l._cleanup now with records := mapSet (l._cleanup now).records key { r2 with currCount := r2.currCount + 1 } })) := by
  unfold RateLimiter.checkAndIncrement
  dsimp only
  rw [hget]
  dsimp only
  rw [hact]
  simp only [Bool.false_eq_true, if_false]

/-! ### Claims -/

/-- C1: for a key with no existing record, `maxRequests + 1` calls to
`checkAndIncrement` that all occur strictly less than `windowMs` after the
first call are admitted exactly `maxRequests` times: the first call and
every call up to the `maxRequests`-th are allowed, and the
`(maxRequests+1)`-th is denied. Moreover the denial test uses the weighted
count before incrementing: a request whose pre-increment weighted count
(computed on the reconciled record) already equals `maxRequests` is denied. -/
theorem claim_C1_sliding_window_limit :
    (∀ (l : RateLimiter) (key : String) (t0 : Int) (ts : List Int),
      0 < l.maxRequests →
      mapGet l.records key = none →
      ts.length = l.maxRequests →
      (∀ t ∈ ts, t0 ≤ t ∧ t < t0 + (l.windowMs : Int)) →
      (runCalls l key (t0 :: ts)).1 =
        List.replicate l.maxRequests true ++ [false]) ∧
    (∀ (l : RateLimiter) (key : String) (now : Int) (r : Record),
      mapGet (l._cleanup now).records key = some r →
      r.bannedUntil = none →
      l._getWeightedCount (slideIfExpired l.windowMs r now) now = (l.maxRequests : Int) →
      (l.checkAndIncrement key now).1 = false) := by
  constructor
  · intro l key t0 ts hM hnone hlen hts
    exact runCalls_fresh_reach_limit l key t0 ts hM hnone hlen (fun t htm => (hts t htm).2)
  · intro l key now r hget hbu htie
    unfold RateLimiter.checkAndIncrement
    dsimp only
    rw [hget]
    dsimp only
    rw [hbu]
    simp only [banActive, banExpiredSet, Bool.false_eq_true, if_false,
      cleanup_windowMs, getWeightedCount_cleanup, cleanup_maxRequests]
    rw [htie, if_pos (le_refl _)]

theorem claim_C1_sliding_window_limit_witness :
    (runCalls { windowMs := 10, maxRequests := 2, records := [], lastCleanup := 0 } "k"
      [0, 3, 7]).1 = [true, true, false] ∧
    (RateLimiter.checkAndIncrement
      { windowMs := 10, maxRequests := 2, records := [("k", ⟨0, 2, 0, none⟩)], lastCleanup := 0 }
      "k" 5).1 = false := by
  constructor
  · exact claim_C1_sliding_window_limit.1
      { windowMs := 10, maxRequests := 2, records := [], lastCleanup := 0 } "k" 0 [3, 7]
      (by decide) rfl rfl (by decide)
  · exact claim_C1_sliding_window_limit.2
      { windowMs := 10, maxRequests := 2, records := [("k", ⟨0, 2, 0, none⟩)], lastCleanup := 0 }
      "k" 5 ⟨0, 2, 0, none⟩ (by with_unfolding_all rfl) rfl (by with_unfolding_all rfl)

/-- C4: when a key's record holds an active ban (`now < bannedUntil`),
`checkAndIncrement` returns denied and the record — `prevCount`,
`currCount`, `windowStart` and `bannedUntil` — is left unchanged. -/
theorem claim_C4_banned_short_circuit
    (l : RateLimiter) (key : String) (now : Int) (r : Record) (b : Int)
    (hget : mapGet l.records key = some r) (hbu : r.bannedUntil = some b)
    (h0 : 0 ≤ now) (hlt : now < b) :
    (l.checkAndIncrement key now).1 = false ∧
    mapGet (l.checkAndIncrement key now).2.records key = some r := by
  have hb0 : b ≠ 0 := by omega
  have h1 : (b != 0) = true := by simpa using hb0
  have h2 : decide (b ≤ now) = false := by simp; omega
  have hexp : recordExpired l.windowMs now r = false := by
    simp [recordExpired, banSet, hbu, h1, h2]
  have hcl := mapGet_cleanup_keep l key now r hget hexp
  have hact : banActive r.bannedUntil now = true := by
    simp [banActive, hbu]
    omega
  unfold RateLimiter.checkAndIncrement
  dsimp only
  rw [hcl]
  dsimp only
  rw [hact]
  constructor
  · simp
  · simpa using hcl

theorem claim_C4_banned_short_circuit_witness :
    (RateLimiter.checkAndIncrement
      { windowMs := 10, maxRequests := 2, records := [("k", ⟨1, 1, 0, some 100⟩)], lastCleanup := 0 }
      "k" 5).1 = false ∧
    mapGet (RateLimiter.checkAndIncrement
      { windowMs := 10, maxRequests := 2, records := [("k", ⟨1, 1, 0, some 100⟩)], lastCleanup := 0 }
      "k" 5).2.records "k" = some ⟨1, 1, 0, some 100⟩ :=
  claim_C4_banned_short_circuit
    { windowMs := 10, maxRequests := 2, records := [("k", ⟨1, 1, 0, some 100⟩)], lastCleanup := 0 }
    "k" 5 ⟨1, 1, 0, some 100⟩ 100 rfl rfl (by decide) (by decide)

/-- C7: `clear(key)` makes `getRecord(key)` absent, and the next recorded
auth failure for the key creates a fresh record with count 1 — exactly the
behavior of a key never seen before, regardless of the prior record. -/
theorem claim_C7_clear_forgives (l : RateLimiter) (key : String) (now : Int) :
    (l.clear key).getRecord key = none ∧
    mapGet (recordAuthFail (l.clear key) key now).records key = some ⟨0, 1, now, none⟩ := by
  have hnone : mapGet (l.clear key).records key = none := mapGet_mapDelete _ _
  constructor
  · exact hnone
  · have hfresh := checkAndIncrement_fresh (l.clear key) key now hnone
    unfold recordAuthFail
    dsimp only
    rw [hfresh]
    dsimp only
    rw [if_pos rfl]
    exact mapGet_mapSet_self _ _ _

/-- C5: `ban(key, d)` with `d > 0` makes `isBanned(key)` true at once,
creating a zero-count record with `bannedUntil = now + d` when the key had
none; and on a record whose set ban has expired (`bannedUntil ≤ now`), the
next `checkAndIncrement` behaves exactly as on the same record with the
ban removed — the counters it evaluates are those the record already held
— and the resulting record has `bannedUntil` unset. -/
theorem claim_C5_ban_lifecycle :
    (∀ (l : RateLimiter) (key : String) (d now : Int),
      0 ≤ now → 0 < d →
      (l.ban key d now).isBanned key now = true ∧
      (mapGet l.records key = none →
        mapGet (l.ban key d now).records key = some ⟨0, 0, now, some (now + d)⟩)) ∧
    (∀ (l : RateLimiter) (key : String) (now : Int) (r : Record) (b : Int),
      mapGet l.records key = some r →
      r.bannedUntil = some b → b ≠ 0 → b ≤ now →
      now - l.lastCleanup < cleanupInterval →
      l.checkAndIncrement key now =
        RateLimiter.checkAndIncrement
          { l with records := mapSet l.records key { r with bannedUntil := none } } key now ∧
      ∃ r2 : Record, mapGet (l.checkAndIncrement key now).2.records key = some r2 ∧
        r2.bannedUntil = none) := by
  constructor
  · intro l key d now h0 hd
    constructor
    · unfold RateLimiter.ban RateLimiter.isBanned
      dsimp only
      rw [mapGet_mapSet_self]
      simp [banActive]
      omega
    · intro hnone
      unfold RateLimiter.ban
      dsimp only
      rw [hnone]
      exact mapGet_mapSet_self _ _ _
  · intro l key now r b hget hbu hb0 hble hlt
    have hcl : l._cleanup now = l := by
      unfold RateLimiter._cleanup
      rw [if_pos hlt]
    have hact : banActive r.bannedUntil now = false := by
      simp [banActive, hbu]
      omega
    have hexp2 : banExpiredSet r.bannedUntil now = true := by
      simp [banExpiredSet, hbu]
      omega
    have hget1 : mapGet (l._cleanup now).records key = some r := by rw [hcl]; exact hget
    have heq1 := checkAndIncrement_not_banned_eq l key now r hget1 hact
    have hcl2 : RateLimiter._cleanup
        { l with records := mapSet l.records key { r with bannedUntil := none } } now =
        { l with records := mapSet l.records key { r with bannedUntil := none } } := by
      unfold RateLimiter._cleanup
      rw [if_pos hlt]
    have hget2 : mapGet (RateLimiter._cleanup
        { l with records := mapSet l.records key { r with bannedUntil := none } } now).records
        key = some { r with bannedUntil := none } := by
      rw [hcl2]
      exact mapGet_mapSet_self _ _ _
    have hact2 : banActive ({ r with bannedUntil := none } : Record).bannedUntil now = false := by
      simp [banActive]
    have heq2 := checkAndIncrement_not_banned_eq _ key now _ hget2 hact2
    constructor
    · rw [heq1, heq2, hcl, hcl2]
      dsimp only
      rw [hexp2]
      simp only [banExpiredSet, Bool.false_eq_true, if_false, if_true, mapSet_mapSet]
      rfl
    · rw [heq1, hcl]
      dsimp only
      rw [hexp2]
      simp only [if_true]
      by_cases hcond : (l.maxRequests : Int) ≤
          l._getWeightedCount (slideIfExpired l.windowMs { r with bannedUntil := none } now) now
      · rw [if_pos hcond]
        refine ⟨_, mapGet_mapSet_self _ _ _, ?_⟩
        rw [slideIfExpired_bannedUntil]
      · rw [if_neg hcond]
        refine ⟨_, mapGet_mapSet_self _ _ _, ?_⟩
        show (slideIfExpired l.windowMs { r with bannedUntil := none } now).bannedUntil = none
        rw [slideIfExpired_bannedUntil]

theorem claim_C5_ban_lifecycle_witness :
    ((RateLimiter.ban { windowMs := 10, maxRequests := 2, records := [], lastCleanup := 0 }
        "k" 7 3).isBanned "k" 3 = true ∧
      (mapGet ([] : List (String × Record)) "k" = none →
        mapGet (RateLimiter.ban { windowMs := 10, maxRequests := 2, records := [], lastCleanup := 0 }
          "k" 7 3).records "k" = some ⟨0, 0, 3, some 10⟩)) ∧
    (RateLimiter.checkAndIncrement
        { windowMs := 10, maxRequests := 2, records := [("k", ⟨0, 1, 0, some 4⟩)], lastCleanup := 0 }
        "k" 5 =
      RateLimiter.checkAndIncrement
        { windowMs := 10, maxRequests := 2, records := [("k", ⟨0, 1, 0, none⟩)], lastCleanup := 0 }
        "k" 5 ∧
      ∃ r2 : Record, mapGet (RateLimiter.checkAndIncrement
        { windowMs := 10, maxRequests := 2, records := [("k", ⟨0, 1, 0, some 4⟩)], lastCleanup := 0 }
        "k" 5).2.records "k" = some r2 ∧ r2.bannedUntil = none) := by
  constructor
  · exact claim_C5_ban_lifecycle.1
      { windowMs := 10, maxRequests := 2, records := [], lastCleanup := 0 } "k" 7 3
      (by decide) (by decide)
  · exact claim_C5_ban_lifecycle.2
      { windowMs := 10, maxRequests := 2, records := [("k", ⟨0, 1, 0, some 4⟩)], lastCleanup := 0 }
      "k" 5 ⟨0, 1, 0, some 4⟩ 4 rfl rfl (by decide) (by decide) (by decide)

/-- C8: the sweep deletes a record only when it meets the spec's
eligibility rule (`gcEligibleSpec`), and every record not meeting the rule
survives the sweep unchanged. -/
theorem claim_C8_sweep_eligibility (l : RateLimiter) (now : Int) (kr : String × Record)
    (hmem : kr ∈ l.records) :
    (kr ∉ (l._cleanup now).records → gcEligibleSpec l.windowMs now kr.2) ∧
    (¬ gcEligibleSpec l.windowMs now kr.2 → kr ∈ (l._cleanup now).records) := by
  have key : recordExpired l.windowMs now kr.2 = true → gcEligibleSpec l.windowMs now kr.2 := by
    intro h
    unfold recordExpired at h
    unfold gcEligibleSpec
    cases hbu : kr.2.bannedUntil with
    | none =>
      right
      refine ⟨rfl, ?_⟩
      rw [hbu] at h
      simpa [banSet] using h
    | some b =>
      left
      refine ⟨by simp [hbu], ?_⟩
      rw [hbu] at h
      by_cases hb : b = 0
      · subst hb
        simp [banSet] at h
        omega
      · have hb' : ((b : Int) != 0) = true := by simpa using hb
        simp [banSet, hb'] at h
        exact h.2
  constructor
  · intro hnotin
    unfold RateLimiter._cleanup at hnotin
    split at hnotin
    · exact absurd hmem hnotin
    · have hker : ¬ ((!recordExpired l.windowMs now kr.2) = true) :=
        fun hp => hnotin (List.mem_filter.mpr ⟨hmem, hp⟩)
      exact key (by simpa using hker)
  · intro hne
    unfold RateLimiter._cleanup
    split
    · exact hmem
    · refine List.mem_filter.mpr ⟨hmem, ?_⟩
      by_cases hexp : recordExpired l.windowMs now kr.2 = true
      · exact absurd (key hexp) hne
      · simpa using hexp

theorem claim_C8_sweep_eligibility_witness :
    (("k", (⟨0, 1, 0, none⟩ : Record)) ∉
        (RateLimiter._cleanup
          { windowMs := 10, maxRequests := 2, records := [("k", ⟨0, 1, 0, none⟩)], lastCleanup := -300000 }
          5).records →
      gcEligibleSpec 10 5 ⟨0, 1, 0, none⟩) ∧
    (¬ gcEligibleSpec 10 5 (⟨0, 1, 0, none⟩ : Record) →
      ("k", (⟨0, 1, 0, none⟩ : Record)) ∈
        (RateLimiter._cleanup
          { windowMs := 10, maxRequests := 2, records := [("k", ⟨0, 1, 0, none⟩)], lastCleanup := -300000 }
          5).records) :=
  claim_C8_sweep_eligibility
    { windowMs := 10, maxRequests := 2, records := [("k", ⟨0, 1, 0, none⟩)], lastCleanup := -300000 }
    5 ("k", ⟨0, 1, 0, none⟩) (by simp)

/-! ### Byte-level helpers for `verifyToken` -/

theorem lor_eq_zero_iff (a b : Nat) : a ||| b = 0 ↔ a = 0 ∧ b = 0 := by
  constructor
  · intro h
    constructor
    · apply Nat.eq_of_testBit_eq
      intro i
      have := congrArg (fun n => n.testBit i) h
      simp only [Nat.testBit_or, Nat.zero_testBit] at this
      simp [Bool.or_eq_false_iff.mp this]
    · apply Nat.eq_of_testBit_eq
      intro i
      have := congrArg (fun n => n.testBit i) h
      simp only [Nat.testBit_or, Nat.zero_testBit] at this
      simp [Bool.or_eq_false_iff.mp this]
  · rintro ⟨rfl, rfl⟩
    simp

theorem foldl_or_xor_eq_zero (l : List (Nat × Nat)) :
    ∀ acc : Nat, (l.foldl (fun acc p => acc ||| (p.1 ^^^ p.2)) acc = 0 ↔
      acc = 0 ∧ ∀ p ∈ l, p.1 = p.2) := by
  induction l with
  | nil => intro acc; simp
  | cons p ps ih =>
    intro acc
    rw [List.foldl_cons, ih, lor_eq_zero_iff, Nat.xor_eq_zero]
    constructor
    · rintro ⟨⟨h1, h2⟩, h3⟩
      exact ⟨h1, fun q hq => by
        rcases List.mem_cons.mp hq with rfl | hq'
        · exact h2
        · exact h3 q hq'⟩
    · rintro ⟨h1, h2⟩
      exact ⟨⟨h1, h2 p (List.mem_cons_self _ _)⟩, fun q hq => h2 q (List.mem_cons_of_mem _ hq)⟩

theorem eq_of_zip_forall_eq :
    ∀ (a b : List Nat), a.length = b.length → (∀ p ∈ a.zip b, p.1 = p.2) → a = b := by
  intro a
  induction a with
  | nil =>
    intro b hlen _
    cases b with
    | nil => rfl
    | cons y ys => simp at hlen
  | cons x xs ih =>
    intro b hlen h
    cases b with
    | nil => simp at hlen
    | cons y ys =>
      have hx : x = y := h (x, y) (by simp [List.zip_cons_cons])
      have hxs : xs = ys := ih ys (by simpa using hlen)
        (fun p hp => h p (by simp [List.zip_cons_cons, hp]))
      rw [hx, hxs]

theorem zip_self_fst_eq_snd :
    ∀ (b : List Nat) (p : Nat × Nat), p ∈ b.zip b → p.1 = p.2 := by
  intro b
  induction b with
  | nil => intro p hp; simp at hp
  | cons x xs ih =>
    intro p hp
    rcases List.mem_cons.mp (by simpa [List.zip_cons_cons] using hp) with rfl | hp'
    · rfl
    · exact ih p hp'

theorem verifyToken_env_truthy (token envToken : Option String)
    (h : verifyToken token envToken = true) : envStrTruthy envToken = true := by
  cases envToken with
  | none => simp [verifyToken] at h
  | some et =>
    by_cases het : et = ""
    · simp [verifyToken, het] at h
    · simp [envStrTruthy, het]

/-- C6: `verifyToken(token, envToken)` accepts exactly when both sides are
present and non-empty and their UTF-8 byte encodings are equal sequences;
in particular it rejects when either side is absent or empty, when the byte
lengths differ, or when any byte differs. -/
theorem claim_C6_verifyToken_iff (token envToken : Option String) :
    verifyToken token envToken = true ↔
    ∃ t et, token = some t ∧ envToken = some et ∧
      t ≠ "" ∧ et ≠ "" ∧ strBytes t = strBytes et := by
  constructor
  · intro h
    cases envToken with
    | none => simp [verifyToken] at h
    | some et =>
      by_cases het : et = ""
      · simp [verifyToken, het] at h
      · cases token with
        | none => simp [verifyToken, het] at h
        | some t =>
          by_cases hts : t = ""
          · simp [verifyToken, het, hts] at h
          · refine ⟨t, et, rfl, rfl, hts, het, ?_⟩
            by_cases hlen : (strBytes t).length = (strBytes et).length
            · simp only [verifyToken, het, hts, if_false, hlen, ne_eq,
                not_true_eq_false] at h
              have hfold : ((strBytes t).zip (strBytes et)).foldl
                  (fun acc p => acc ||| (p.1 ^^^ p.2)) 0 = 0 := by
                simpa using h
              exact eq_of_zip_forall_eq _ _ hlen
                ((foldl_or_xor_eq_zero _ 0).mp hfold).2
            · simp [verifyToken, het, hts, hlen] at h
  · rintro ⟨t, et, rfl, rfl, hts, het, hbytes⟩
    have hlen : (strBytes t).length = (strBytes et).length := by rw [hbytes]
    have hfold : ((strBytes t).zip (strBytes et)).foldl
        (fun acc p => acc ||| (p.1 ^^^ p.2)) 0 = 0 := by
      apply (foldl_or_xor_eq_zero _ 0).mpr
      refine ⟨rfl, ?_⟩
      rw [hbytes]
      exact zip_self_fst_eq_snd _
    simp [verifyToken, het, hts, hlen, hfold]

/-! ### Pipeline helper lemmas -/

theorem clientIPOf_some_ne {s : String} (h : s ≠ "") : clientIPOf (some s) = s := by
  simp [clientIPOf, h]

theorem isBanned_of_none (l : RateLimiter) (key : String) (now : Int)
    (h : mapGet l.records key = none) : l.isBanned key now = false := by
  unfold RateLimiter.isBanned
  rw [h]

theorem isBanned_of_record (l : RateLimiter) (key : String) (now : Int) (r : Record)
    (h : mapGet l.records key = some r) : l.isBanned key now = banActive r.bannedUntil now := by
  unfold RateLimiter.isBanned
  rw [h]

theorem mapGet_none_not_mem (m : List (String × Record)) (key : String)
    (h : mapGet m key = none) : ∀ r : Record, (key, r) ∉ m := by
  induction m with
  | nil => intro r hr; simp at hr
  | cons kr rest ih =>
    intro r hr
    by_cases hk : kr.1 = key
    · simp [mapGet, hk] at h
    · simp only [mapGet, hk, if_false] at h
      rcases List.mem_cons.mp hr with rfl | hr'
      · exact hk rfl
      · exact ih h r hr'

theorem trafficInv_of_none (l : RateLimiter) (key : String) (k : Nat) (t : Int)
    (h : mapGet l.records key = none) : TrafficInv l key k t :=
  fun r hr => absurd hr (mapGet_none_not_mem _ _ h r)

/-- The rate-limiter component of the state after one `fetch` is exactly
the result of its `checkAndIncrement`, and the outcome is `rateLimited`
exactly when that call denied. -/
theorem handleFetch_traffic (st : GatewayState) (env : Env) (req : Request) (now : Int) :
    (handleFetch st env req now).2.rateLimiter =
      (st.rateLimiter.checkAndIncrement (clientIPOf req.cfConnectingIP) now).2 ∧
    (((handleFetch st env req now).1 != Outcome.rateLimited) =
      (st.rateLimiter.checkAndIncrement (clientIPOf req.cfConnectingIP) now).1) := by
  unfold handleFetch
  dsimp only
  cases hb : (st.rateLimiter.checkAndIncrement (clientIPOf req.cfConnectingIP) now).1 with
  | false => simp [hb]
  | true =>
    simp only [hb, Bool.not_true, Bool.false_eq_true, if_false]
    split
    · simp
    · split
      · simp
      · split
        · simp
        · split <;> simp

theorem handleFetch_unauthorized (st : GatewayState) (env : Env) (req : Request) (now : Int)
    (key : String)
    (hkey : clientIPOf req.cfConnectingIP = key)
    (htr : (st.rateLimiter.checkAndIncrement key now).1 = true)
    (hban : st.authFailLimiter.isBanned key now = false)
    (henv : envStrTruthy env.ACCESS_TOKEN = true)
    (hstor : env.hasYamlStorage = true)
    (hver : verifyToken req.token env.ACCESS_TOKEN = false) :
    handleFetch st env req now =
      (Outcome.unauthorized,
        { rateLimiter := (st.rateLimiter.checkAndIncrement key now).2,
          authFailLimiter := recordAuthFail st.authFailLimiter key now }) := by
  unfold handleFetch
  dsimp only
  rw [hkey, htr, hban, henv, hstor, hver]
  simp

theorem recordAuthFail_allowed (l : RateLimiter) (ip : String) (now : Int)
    (h : (l.checkAndIncrement ip now).1 = true) :
    recordAuthFail l ip now = (l.checkAndIncrement ip now).2 := by
  unfold recordAuthFail
  dsimp only
  rw [h]
  simp

theorem recordAuthFail_denied_ban (l : RateLimiter) (ip : String) (now : Int) (r : Record)
    (hden : (l.checkAndIncrement ip now).1 = false)
    (hget : mapGet (l.checkAndIncrement ip now).2.records ip = some r)
    (hbu : r.bannedUntil = none) :
    recordAuthFail l ip now = ((l.checkAndIncrement ip now).2).ban ip AUTH_FAIL_BAN_DURATION now := by
  unfold recordAuthFail
  dsimp only
  rw [hden]
  simp only [Bool.false_eq_true, if_false]
  unfold RateLimiter.getRecord
  rw [hget]
  dsimp only
  rw [hbu]
  simp

theorem ban_get_some (l : RateLimiter) (key : String) (d now : Int) (r : Record)
    (h : mapGet l.records key = some r) :
    mapGet (l.ban key d now).records key = some { r with bannedUntil := some (now + d) } := by
  unfold RateLimiter.ban
  dsimp only
  rw [h]
  exact mapGet_mapSet_self _ _ _

/-- C10: a request that passes throttle and ban check, carries a verifying
token, but addresses a path other than `/subscribe` receives the not-found
terminal response and nevertheless deletes the client key's auth-failure
record — the auth-failure limiter is mutated although the request fails. -/
theorem claim_C10_clear_despite_not_found
    (st : GatewayState) (env : Env) (req : Request) (now : Int) (key : String)
    (hkey : clientIPOf req.cfConnectingIP = key)
    (htraffic : (st.rateLimiter.checkAndIncrement key now).1 = true)
    (hban : st.authFailLimiter.isBanned key now = false)
    (hstor : env.hasYamlStorage = true)
    (hverify : verifyToken req.token env.ACCESS_TOKEN = true)
    (hpath : req.pathname ≠ "/subscribe") :
    (handleFetch st env req now).1 = Outcome.notFound ∧
    mapGet (handleFetch st env req now).2.authFailLimiter.records key = none := by
  have henvt : envStrTruthy env.ACCESS_TOKEN = true := verifyToken_env_truthy _ _ hverify
  unfold handleFetch
  dsimp only
  rw [hkey, htraffic, hban, henvt, hstor, hverify]
  simp only [Bool.not_true, Bool.false_or, Bool.false_eq_true, if_false, Bool.or_self]
  rw [if_pos hpath]
  exact ⟨rfl, mapGet_mapDelete _ _⟩

theorem claim_C10_clear_despite_not_found_witness :
    (handleFetch
      { rateLimiter := { windowMs := 60000, maxRequests := 30, records := [], lastCleanup := 0 },
        authFailLimiter := { windowMs := 900000, maxRequests := 5, records := [("1.2.3.4", ⟨0, 4, 0, none⟩)], lastCleanup := 0 } }
      { ACCESS_TOKEN := some "s", hasYamlStorage := true }
      { cfConnectingIP := some "1.2.3.4", pathname := "/x", token := some "s" } 0).1 =
        Outcome.notFound ∧
    mapGet (handleFetch
      { rateLimiter := { windowMs := 60000, maxRequests := 30, records := [], lastCleanup := 0 },
        authFailLimiter := { windowMs := 900000, maxRequests := 5, records := [("1.2.3.4", ⟨0, 4, 0, none⟩)], lastCleanup := 0 } }
      { ACCESS_TOKEN := some "s", hasYamlStorage := true }
      { cfConnectingIP := some "1.2.3.4", pathname := "/x", token := some "s" } 0).2.authFailLimiter.records
      "1.2.3.4" = none :=
  claim_C10_clear_despite_not_found
    { rateLimiter := { windowMs := 60000, maxRequests := 30, records := [], lastCleanup := 0 },
      authFailLimiter := { windowMs := 900000, maxRequests := 5, records := [("1.2.3.4", ⟨0, 4, 0, none⟩)], lastCleanup := 0 } }
    { ACCESS_TOKEN := some "s", hasYamlStorage := true }
    { cfConnectingIP := some "1.2.3.4", pathname := "/x", token := some "s" } 0 "1.2.3.4"
    (by with_unfolding_all rfl) (by with_unfolding_all rfl) (by with_unfolding_all rfl)
    rfl (by with_unfolding_all rfl) (by decide)

/-- Projection of a request trace onto the traffic limiter: when every
request derives the same client key, the outcomes are `rateLimited`
exactly where the limiter denies, and the final limiter state is the fold
of `checkAndIncrement` over the arrival times. -/
theorem runRequests_traffic (env : Env) (key : String) :
    ∀ (rs : List ReqAt) (st : GatewayState),
      (∀ ra ∈ rs, clientIPOf ra.req.cfConnectingIP = key) →
      (runRequests st env rs).1.map (fun o => o != Outcome.rateLimited) =
        (runCalls st.rateLimiter key (rs.map ReqAt.now)).1 ∧
      (runRequests st env rs).2.rateLimiter =
        (runCalls st.rateLimiter key (rs.map ReqAt.now)).2 := by
  intro rs
  induction rs with
  | nil => intro st _; exact ⟨rfl, rfl⟩
  | cons ra rest ih =>
    intro st h
    have hkey := h ra (List.mem_cons_self _ _)
    obtain ⟨ht1, ht2⟩ := handleFetch_traffic st env ra.req ra.now
    rw [hkey] at ht1 ht2
    obtain ⟨ih1, ih2⟩ := ih (handleFetch st env ra.req ra.now).2
      (fun ra' hra' => h ra' (List.mem_cons_of_mem _ hra'))
    constructor
    · show ((handleFetch st env ra.req ra.now).1 != Outcome.rateLimited) ::
        (runRequests (handleFetch st env ra.req ra.now).2 env rest).1.map
          (fun o => o != Outcome.rateLimited) =
        (st.rateLimiter.checkAndIncrement key ra.now).1 ::
        (runCalls (st.rateLimiter.checkAndIncrement key ra.now).2 key (rest.map ReqAt.now)).1
      rw [ht2, ih1, ht1]
    · show (runRequests (handleFetch st env ra.req ra.now).2 env rest).2.rateLimiter =
        (runCalls (st.rateLimiter.checkAndIncrement key ra.now).2 key (rest.map ReqAt.now)).2
      rw [ih2, ht1]

theorem slideIfExpired_of_le (w : Nat) (r : Record) (now : Int)
    (h : (w : Int) ≤ now - r.windowStart) :
    slideIfExpired w r now =
      ⟨if (now - r.windowStart).fdiv (w : Int) = 1 then r.currCount else 0, 0,
       r.windowStart + (now - r.windowStart).fdiv (w : Int) * (w : Int), r.bannedUntil⟩ := by
  unfold slideIfExpired
  dsimp only
  rw [if_pos h]
  split
  · next h1 => simp [h1]
  · next h1 => simp [h1]

theorem fdiv_bounds (e w : Int) (hw : 0 < w) (he : w ≤ e) :
    1 ≤ e.fdiv w ∧ e.fdiv w * w ≤ e ∧ e - e.fdiv w * w < w := by
  rw [Int.fdiv_eq_ediv _ (le_of_lt hw)]
  have h1 := Int.ediv_add_emod e w
  have h2 := Int.emod_nonneg e (by omega : w ≠ 0)
  have h3 := Int.emod_lt_of_pos e hw
  have hmul : e / w * w = e - e % w := by rw [mul_comm]; linarith
  refine ⟨?_, by linarith, by linarith⟩
  by_contra hq
  push_neg at hq
  have hq' : e / w ≤ 0 := by omega
  nlinarith [hmul, h3, he, hw]

/-- A run of wrong-token requests from one key against a fresh-enough
state: with the auth-failure limiter at `⟨0, c, t1, none⟩` and `c + n = 6`
requests remaining, every request is answered `unauthorized`, and after
the last one the key's auth record is `⟨0, 5, t1⟩` with a ban until
`tLast + AUTH_FAIL_BAN_DURATION`. -/
theorem authFailTrace (env : Env) (key : String) (hkeyne : key ≠ "")
    (henv : envStrTruthy env.ACCESS_TOKEN = true) (hstor : env.hasYamlStorage = true) :
    ∀ (rs : List ReqAt) (st : GatewayState) (c k : Nat) (t1 tprev : Int),
      c + rs.length = 6 → 1 ≤ rs.length →
      st.authFailLimiter.windowMs = 900000 →
      st.authFailLimiter.maxRequests = 5 →
      mapGet st.authFailLimiter.records key = some ⟨0, c, t1, none⟩ →
      0 < st.rateLimiter.windowMs →
      k + rs.length ≤ st.rateLimiter.maxRequests →
      TrafficInv st.rateLimiter key k tprev →
      List.Chain' (· ≤ ·) (tprev :: rs.map ReqAt.now) →
      (∀ ra ∈ rs, ra.req.cfConnectingIP = some key ∧
        verifyToken ra.req.token env.ACCESS_TOKEN = false ∧
        ra.now < t1 + 900000) →
      (runRequests st env rs).1 = List.replicate rs.length Outcome.unauthorized ∧
      ∃ tLast, (rs.map ReqAt.now).getLast? = some tLast ∧
        mapGet (runRequests st env rs).2.authFailLimiter.records key =
          some ⟨0, 5, t1, some (tLast + AUTH_FAIL_BAN_DURATION)⟩ := by
  intro rs
  induction rs with
  | nil =>
    intro st c k t1 tprev hc6 hne
    simp at hne
  | cons ra rest ih =>
    intro st c k t1 tprev hc6 _hne hwmsA hmaxA hrecA hwtr hktr hInvTr hchain hreq
    obtain ⟨hhdr, hver, hwnd⟩ := hreq ra (List.mem_cons_self _ _)
    have hkey' : clientIPOf ra.req.cfConnectingIP = key := by
      rw [hhdr]; exact clientIPOf_some_ne hkeyne
    obtain ⟨hstep1, hchain'⟩ := List.chain'_cons.mp hchain
    have tstep := checkAndIncrement_traffic_step st.rateLimiter key k tprev ra.now
      hwtr (by omega) hInvTr hstep1
    have hwndA : ra.now < t1 + (st.authFailLimiter.windowMs : Int) := by
      rw [hwmsA]; exact_mod_cast hwnd
    have astep := checkAndIncrement_step_in_window st.authFailLimiter key c t1 ra.now hrecA hwndA
    have hbanF : st.authFailLimiter.isBanned key ra.now = false := by
      rw [isBanned_of_record _ _ _ _ hrecA]; rfl
    have hfetch := handleFetch_unauthorized st env ra.req ra.now key hkey' tstep.1 hbanF
      henv hstor hver
    cases rest with
    | nil =>
      have hc5 : c = 5 := by simpa using hc6
      subst hc5
      have hden : (st.authFailLimiter.checkAndIncrement key ra.now).1 = false := by
        rw [astep]
        show decide (5 < st.authFailLimiter.maxRequests) = false
        rw [hmaxA]
        decide
      have hget2 : mapGet (st.authFailLimiter.checkAndIncrement key ra.now).2.records key =
          some ⟨0, 5, t1, none⟩ := by
        rw [astep]
        show mapGet (mapSet _ key ⟨0, if 5 < st.authFailLimiter.maxRequests then 6 else 5, t1, none⟩) key = _
        rw [mapGet_mapSet_self, if_neg (by rw [hmaxA]; omega)]
      have hbanres := recordAuthFail_denied_ban st.authFailLimiter key ra.now ⟨0, 5, t1, none⟩
        hden hget2 rfl
      have hfinal : mapGet (recordAuthFail st.authFailLimiter key ra.now).records key =
          some ⟨0, 5, t1, some (ra.now + AUTH_FAIL_BAN_DURATION)⟩ := by
        rw [hbanres]
        exact ban_get_some _ _ _ _ _ hget2
      constructor
      · show (handleFetch st env ra.req ra.now).1 :: ([] : List Outcome) = _
        rw [hfetch]
        rfl
      · refine ⟨ra.now, rfl, ?_⟩
        show mapGet (handleFetch st env ra.req ra.now).2.authFailLimiter.records key = _
        rw [hfetch]
        exact hfinal
    | cons rb rest' =>
      have hc : c < 5 := by
        simp at hc6
        omega
      have hcc : c < st.authFailLimiter.maxRequests := by rw [hmaxA]; omega
      have hallow : (st.authFailLimiter.checkAndIncrement key ra.now).1 = true := by
        rw [astep]
        show decide (c < st.authFailLimiter.maxRequests) = true
        simpa using hcc
      have hauth' : recordAuthFail st.authFailLimiter key ra.now =
          (st.authFailLimiter.checkAndIncrement key ra.now).2 :=
        recordAuthFail_allowed _ _ _ hallow
      have hrecA' : mapGet (st.authFailLimiter.checkAndIncrement key ra.now).2.records key =
          some ⟨0, c + 1, t1, none⟩ := by
        rw [astep]
        show mapGet (mapSet _ key ⟨0, if c < st.authFailLimiter.maxRequests then c + 1 else c, t1, none⟩) key = _
        rw [mapGet_mapSet_self, if_pos hcc]
      have hwmsA' : (st.authFailLimiter.checkAndIncrement key ra.now).2.windowMs = 900000 := by
        rw [astep]
        show (st.authFailLimiter._cleanup ra.now).windowMs = 900000
        rw [cleanup_windowMs, hwmsA]
      have hmaxA' : (st.authFailLimiter.checkAndIncrement key ra.now).2.maxRequests = 5 := by
        rw [astep]
        show (st.authFailLimiter._cleanup ra.now).maxRequests = 5
        rw [cleanup_maxRequests, hmaxA]
      obtain ⟨ihout, tLast, ihlast, ihrec⟩ := ih
        ⟨(st.rateLimiter.checkAndIncrement key ra.now).2,
          (st.authFailLimiter.checkAndIncrement key ra.now).2⟩
        (c + 1) (k + 1) t1 ra.now
        (by simp at hc6 ⊢; omega) (by simp)
        hwmsA' hmaxA' hrecA'
        (by rw [tstep.2.2.1]; exact hwtr)
        (by rw [tstep.2.2.2]; simp at hktr ⊢; omega)
        tstep.2.1
        hchain'
        (fun ra' hra' => hreq ra' (List.mem_cons_of_mem _ hra'))
      have hstate : (handleFetch st env ra.req ra.now).2 =
          ⟨(st.rateLimiter.checkAndIncrement key ra.now).2,
            (st.authFailLimiter.checkAndIncrement key ra.now).2⟩ := by
        rw [hfetch, hauth']
      constructor
      · show (handleFetch st env ra.req ra.now).1 ::
          (runRequests (handleFetch st env ra.req ra.now).2 env (rb :: rest')).1 = _
        rw [hstate, ihout, hfetch]
        rfl
      · refine ⟨tLast, ?_, ?_⟩
        · show (ra.now :: rb.now :: rest'.map ReqAt.now).getLast? = some tLast
          rw [List.getLast?_cons_cons]
          exact ihlast
        · show mapGet (runRequests (handleFetch st env ra.req ra.now).2 env
            (rb :: rest')).2.authFailLimiter.records key = _
          rw [hstate]
          exact ihrec

/-- C3 (amended): with a configured environment, 6 consecutive wrong-token
requests within 15 minutes from a fresh client key are all answered with
the unauthorized terminal response (401) — including the 6th, which
nevertheless triggers the 30-minute ban — and afterwards every request
from that key that passes the traffic throttle, while the ban is active,
receives the banned terminal response (403) and leaves the auth-failure
limiter untouched. -/
theorem claim_C3_auth_ban_escalation :
    (∀ (st : GatewayState) (env : Env) (key : String) (ra1 : ReqAt) (rest : List ReqAt),
      key ≠ "" →
      envStrTruthy env.ACCESS_TOKEN = true →
      env.hasYamlStorage = true →
      st.authFailLimiter.windowMs = 900000 →
      st.authFailLimiter.maxRequests = 5 →
      mapGet st.authFailLimiter.records key = none →
      0 < st.rateLimiter.windowMs →
      6 ≤ st.rateLimiter.maxRequests →
      mapGet st.rateLimiter.records key = none →
      rest.length = 5 →
      List.Chain' (· ≤ ·) (ra1.now :: rest.map ReqAt.now) →
      (∀ ra ∈ ra1 :: rest, ra.req.cfConnectingIP = some key ∧
        verifyToken ra.req.token env.ACCESS_TOKEN = false) →
      (∀ ra ∈ rest, ra.now < ra1.now + 900000) →
      (runRequests st env (ra1 :: rest)).1 = List.replicate 6 Outcome.unauthorized ∧
      ∃ tLast, (rest.map ReqAt.now).getLast? = some tLast ∧
        mapGet (runRequests st env (ra1 :: rest)).2.authFailLimiter.records key =
          some ⟨0, 5, ra1.now, some (tLast + AUTH_FAIL_BAN_DURATION)⟩) ∧
    (∀ (st : GatewayState) (env : Env) (req : Request) (now : Int) (key : String)
        (r : Record) (B : Int),
      clientIPOf req.cfConnectingIP = key →
      (st.rateLimiter.checkAndIncrement key now).1 = true →
      mapGet st.authFailLimiter.records key = some r →
      r.bannedUntil = some B → B ≠ 0 → now < B →
      (handleFetch st env req now).1 = Outcome.authBanned ∧
      (handleFetch st env req now).2.authFailLimiter = st.authFailLimiter) := by
  constructor
  · intro st env key ra1 rest hkeyne henv hstor hwmsA hmaxA hnoneA hwtr hktr hnoneT
      hlen hchain hreq hwnd
    obtain ⟨hhdr1, hver1⟩ := hreq ra1 (List.mem_cons_self _ _)
    have hkey1 : clientIPOf ra1.req.cfConnectingIP = key := by
      rw [hhdr1]; exact clientIPOf_some_ne hkeyne
    have tstep := checkAndIncrement_traffic_step st.rateLimiter key 0 ra1.now ra1.now
      hwtr (by omega) (trafficInv_of_none _ _ _ _ hnoneT) (le_refl _)
    have hfreshA := checkAndIncrement_fresh st.authFailLimiter key ra1.now hnoneA
    have hallow1 : (st.authFailLimiter.checkAndIncrement key ra1.now).1 = true := by
      rw [hfreshA]
    have hauth1 : recordAuthFail st.authFailLimiter key ra1.now =
        (st.authFailLimiter.checkAndIncrement key ra1.now).2 :=
      recordAuthFail_allowed _ _ _ hallow1
    have hbanF : st.authFailLimiter.isBanned key ra1.now = false :=
      isBanned_of_none _ _ _ hnoneA
    have hfetch := handleFetch_unauthorized st env ra1.req ra1.now key hkey1 tstep.1 hbanF
      henv hstor hver1
    have hrecA' : mapGet (st.authFailLimiter.checkAndIncrement key ra1.now).2.records key =
        some ⟨0, 1, ra1.now, none⟩ := by
      rw [hfreshA]
      exact mapGet_mapSet_self _ _ _
    have hwmsA' : (st.authFailLimiter.checkAndIncrement key ra1.now).2.windowMs = 900000 := by
      rw [hfreshA]
      show (st.authFailLimiter._cleanup ra1.now).windowMs = 900000
      rw [cleanup_windowMs, hwmsA]
    have hmaxA' : (st.authFailLimiter.checkAndIncrement key ra1.now).2.maxRequests = 5 := by
      rw [hfreshA]
      show (st.authFailLimiter._cleanup ra1.now).maxRequests = 5
      rw [cleanup_maxRequests, hmaxA]
    obtain ⟨ihout, tLast, ihlast, ihrec⟩ := authFailTrace env key hkeyne henv hstor rest
      ⟨(st.rateLimiter.checkAndIncrement key ra1.now).2,
        (st.authFailLimiter.checkAndIncrement key ra1.now).2⟩
      1 1 ra1.now ra1.now
      (by omega) (by omega)
      hwmsA' hmaxA' hrecA'
      (by rw [tstep.2.2.1]; exact hwtr)
      (by rw [tstep.2.2.2]; omega)
      tstep.2.1
      hchain
      (fun ra' hra' => ⟨(hreq ra' (List.mem_cons_of_mem _ hra')).1,
        (hreq ra' (List.mem_cons_of_mem _ hra')).2, hwnd ra' hra'⟩)
    have hstate : (handleFetch st env ra1.req ra1.now).2 =
        ⟨(st.rateLimiter.checkAndIncrement key ra1.now).2,
          (st.authFailLimiter.checkAndIncrement key ra1.now).2⟩ := by
      rw [hfetch, hauth1]
    constructor
    · show (handleFetch st env ra1.req ra1.now).1 ::
        (runRequests (handleFetch st env ra1.req ra1.now).2 env rest).1 = _
      rw [hstate, ihout, hfetch, hlen]
      rfl
    · refine ⟨tLast, ihlast, ?_⟩
      show mapGet (runRequests (handleFetch st env ra1.req ra1.now).2 env
        rest).2.authFailLimiter.records key = _
      rw [hstate]
      exact ihrec
  · intro st env req now key r B hkey htr hget hbu hB0 hnow
    have hact : banActive r.bannedUntil now = true := by
      simp [banActive, hbu]
      omega
    have hban : st.authFailLimiter.isBanned key now = true := by
      rw [isBanned_of_record _ _ _ _ hget, hact]
    unfold handleFetch
    dsimp only
    rw [hkey, htr, hban]
    simp

/-- C3 counterexample to the original claim: in a concrete run of 6
consecutive wrong-token requests from one fresh key with a configured
environment, the 6th request is answered `unauthorized` (401), not the
banned terminal response (403) — the ban it triggers only affects later
requests. -/
theorem claim_C3_sixth_request_counterexample :
    ((runRequests
        { rateLimiter := { windowMs := 60000, maxRequests := 30, records := [], lastCleanup := 0 },
          authFailLimiter := { windowMs := 900000, maxRequests := 5, records := [], lastCleanup := 0 } }
        { ACCESS_TOKEN := some "s", hasYamlStorage := true }
        [⟨⟨some "1.2.3.4", "/subscribe", some "w"⟩, 0⟩, ⟨⟨some "1.2.3.4", "/subscribe", some "w"⟩, 1⟩,
         ⟨⟨some "1.2.3.4", "/subscribe", some "w"⟩, 2⟩, ⟨⟨some "1.2.3.4", "/subscribe", some "w"⟩, 3⟩,
         ⟨⟨some "1.2.3.4", "/subscribe", some "w"⟩, 4⟩, ⟨⟨some "1.2.3.4", "/subscribe", some "w"⟩, 5⟩]).1[5]? =
      some Outcome.unauthorized) ∧
    ¬ ((runRequests
        { rateLimiter := { windowMs := 60000, maxRequests := 30, records := [], lastCleanup := 0 },
          authFailLimiter := { windowMs := 900000, maxRequests := 5, records := [], lastCleanup := 0 } }
        { ACCESS_TOKEN := some "s", hasYamlStorage := true }
        [⟨⟨some "1.2.3.4", "/subscribe", some "w"⟩, 0⟩, ⟨⟨some "1.2.3.4", "/subscribe", some "w"⟩, 1⟩,
         ⟨⟨some "1.2.3.4", "/subscribe", some "w"⟩, 2⟩, ⟨⟨some "1.2.3.4", "/subscribe", some "w"⟩, 3⟩,
         ⟨⟨some "1.2.3.4", "/subscribe", some "w"⟩, 4⟩, ⟨⟨some "1.2.3.4", "/subscribe", some "w"⟩, 5⟩]).1[5]? =
      some Outcome.authBanned) := by
  constructor
  · with_unfolding_all rfl
  · with_unfolding_all decide

theorem claim_C3_auth_ban_escalation_witness :
    ((runRequests
        { rateLimiter := { windowMs := 60000, maxRequests := 30, records := [], lastCleanup := 0 },
          authFailLimiter := { windowMs := 900000, maxRequests := 5, records := [], lastCleanup := 0 } }
        { ACCESS_TOKEN := some "s", hasYamlStorage := true }
        (⟨⟨some "1.2.3.4", "/subscribe", some "w"⟩, 0⟩ ::
         [⟨⟨some "1.2.3.4", "/subscribe", some "w"⟩, 1⟩, ⟨⟨some "1.2.3.4", "/subscribe", some "w"⟩, 2⟩,
          ⟨⟨some "1.2.3.4", "/subscribe", some "w"⟩, 3⟩, ⟨⟨some "1.2.3.4", "/subscribe", some "w"⟩, 4⟩,
          ⟨⟨some "1.2.3.4", "/subscribe", some "w"⟩, 5⟩])).1 = List.replicate 6 Outcome.unauthorized ∧
      ∃ tLast, (([⟨⟨some "1.2.3.4", "/subscribe", some "w"⟩, 1⟩, ⟨⟨some "1.2.3.4", "/subscribe", some "w"⟩, 2⟩,
          ⟨⟨some "1.2.3.4", "/subscribe", some "w"⟩, 3⟩, ⟨⟨some "1.2.3.4", "/subscribe", some "w"⟩, 4⟩,
          ⟨⟨some "1.2.3.4", "/subscribe", some "w"⟩, 5⟩] : List ReqAt).map ReqAt.now).getLast? = some tLast ∧
        mapGet (runRequests
          { rateLimiter := { windowMs := 60000, maxRequests := 30, records := [], lastCleanup := 0 },
            authFailLimiter := { windowMs := 900000, maxRequests := 5, records := [], lastCleanup := 0 } }
          { ACCESS_TOKEN := some "s", hasYamlStorage := true }
          (⟨⟨some "1.2.3.4", "/subscribe", some "w"⟩, 0⟩ ::
           [⟨⟨some "1.2.3.4", "/subscribe", some "w"⟩, 1⟩, ⟨⟨some "1.2.3.4", "/subscribe", some "w"⟩, 2⟩,
            ⟨⟨some "1.2.3.4", "/subscribe", some "w"⟩, 3⟩, ⟨⟨some "1.2.3.4", "/subscribe", some "w"⟩, 4⟩,
            ⟨⟨some "1.2.3.4", "/subscribe", some "w"⟩, 5⟩])).2.authFailLimiter.records "1.2.3.4" =
          some ⟨0, 5, 0, some (tLast + AUTH_FAIL_BAN_DURATION)⟩) ∧
    ((handleFetch
        { rateLimiter := { windowMs := 60000, maxRequests := 30, records := [], lastCleanup := 0 },
          authFailLimiter := { windowMs := 900000, maxRequests := 5, records := [("1.2.3.4", ⟨0, 5, 0, some 1800005⟩)], lastCleanup := 0 } }
        { ACCESS_TOKEN := some "s", hasYamlStorage := true }
        ⟨some "1.2.3.4", "/subscribe", some "w"⟩ 100).1 = Outcome.authBanned ∧
      (handleFetch
        { rateLimiter := { windowMs := 60000, maxRequests := 30, records := [], lastCleanup := 0 },
          authFailLimiter := { windowMs := 900000, maxRequests := 5, records := [("1.2.3.4", ⟨0, 5, 0, some 1800005⟩)], lastCleanup := 0 } }
        { ACCESS_TOKEN := some "s", hasYamlStorage := true }
        ⟨some "1.2.3.4", "/subscribe", some "w"⟩ 100).2.authFailLimiter =
        { windowMs := 900000, maxRequests := 5, records := [("1.2.3.4", ⟨0, 5, 0, some 1800005⟩)], lastCleanup := 0 }) := by
  constructor
  · exact claim_C3_auth_ban_escalation.1
      { rateLimiter := { windowMs := 60000, maxRequests := 30, records := [], lastCleanup := 0 },
        authFailLimiter := { windowMs := 900000, maxRequests := 5, records := [], lastCleanup := 0 } }
      { ACCESS_TOKEN := some "s", hasYamlStorage := true } "1.2.3.4"
      ⟨⟨some "1.2.3.4", "/subscribe", some "w"⟩, 0⟩
      [⟨⟨some "1.2.3.4", "/subscribe", some "w"⟩, 1⟩, ⟨⟨some "1.2.3.4", "/subscribe", some "w"⟩, 2⟩,
       ⟨⟨some "1.2.3.4", "/subscribe", some "w"⟩, 3⟩, ⟨⟨some "1.2.3.4", "/subscribe", some "w"⟩, 4⟩,
       ⟨⟨some "1.2.3.4", "/subscribe", some "w"⟩, 5⟩]
      (by decide) rfl rfl rfl rfl rfl (by decide) (by decide) rfl (by decide) (by simp)
      (by decide) (by decide)
  · exact claim_C3_auth_ban_escalation.2
      { rateLimiter := { windowMs := 60000, maxRequests := 30, records := [], lastCleanup := 0 },
        authFailLimiter := { windowMs := 900000, maxRequests := 5, records := [("1.2.3.4", ⟨0, 5, 0, some 1800005⟩)], lastCleanup := 0 } }
      { ACCESS_TOKEN := some "s", hasYamlStorage := true }
      ⟨some "1.2.3.4", "/subscribe", some "w"⟩ 100 "1.2.3.4" ⟨0, 5, 0, some 1800005⟩ 1800005
      (by decide) (by with_unfolding_all rfl) rfl rfl (by decide) (by decide)

/-- C9: a request whose `CF-Connecting-IP` header is absent or empty is
keyed under the literal `"unknown"` — the whole `fetch` behaves exactly as
if the header carried `"unknown"` — so all such requests share one
rate-limit window and one ban state: with the traffic limiter configured
at a 60 s window and 30 requests, 30 header-less requests within a minute
make the 31st header-less request rate-limited, whichever client sent it. -/
theorem claim_C9_unknown_key_shared :
    (∀ (st : GatewayState) (env : Env) (path : String) (token : Option String) (now : Int),
      handleFetch st env { cfConnectingIP := none, pathname := path, token := token } now =
        handleFetch st env { cfConnectingIP := some "", pathname := path, token := token } now ∧
      handleFetch st env { cfConnectingIP := none, pathname := path, token := token } now =
        handleFetch st env { cfConnectingIP := some "unknown", pathname := path, token := token } now) ∧
    (∀ (st : GatewayState) (env : Env) (ra0 : ReqAt) (rest : List ReqAt),
      st.rateLimiter.windowMs = 60000 →
      st.rateLimiter.maxRequests = 30 →
      mapGet st.rateLimiter.records "unknown" = none →
      (∀ ra ∈ ra0 :: rest, ra.req.cfConnectingIP = none ∨ ra.req.cfConnectingIP = some "") →
      rest.length = 30 →
      (∀ ra ∈ rest, ra.now < ra0.now + 60000) →
      (runRequests st env (ra0 :: rest)).1.map (fun o => o != Outcome.rateLimited) =
        List.replicate 30 true ++ [false]) := by
  constructor
  · intro st env path token now
    exact ⟨rfl, rfl⟩
  · intro st env ra0 rest hw hmax hnone hhdr hlen hts
    have hkeys : ∀ ra ∈ ra0 :: rest, clientIPOf ra.req.cfConnectingIP = "unknown" := by
      intro ra hra
      rcases hhdr ra hra with h | h <;> rw [h] <;> rfl
    obtain ⟨hmap, -⟩ := runRequests_traffic env "unknown" (ra0 :: rest) st hkeys
    rw [hmap]
    show (runCalls st.rateLimiter "unknown" (ra0.now :: rest.map ReqAt.now)).1 = _
    have hlim := runCalls_fresh_reach_limit st.rateLimiter "unknown" ra0.now (rest.map ReqAt.now)
      (by rw [hmax]; omega) hnone (by simp [hlen, hmax])
      (fun t htm => by
        obtain ⟨ra, hra, rfl⟩ := List.mem_map.mp htm
        rw [hw]
        exact hts ra hra)
    rw [hlim, hmax]

theorem claim_C9_unknown_key_shared_witness :
    (handleFetch
        { rateLimiter := { windowMs := 60000, maxRequests := 30, records := [], lastCleanup := 0 },
          authFailLimiter := { windowMs := 900000, maxRequests := 5, records := [], lastCleanup := 0 } }
        { ACCESS_TOKEN := some "s", hasYamlStorage := true }
        { cfConnectingIP := none, pathname := "/x", token := none } 0 =
      handleFetch
        { rateLimiter := { windowMs := 60000, maxRequests := 30, records := [], lastCleanup := 0 },
          authFailLimiter := { windowMs := 900000, maxRequests := 5, records := [], lastCleanup := 0 } }
        { ACCESS_TOKEN := some "s", hasYamlStorage := true }
        { cfConnectingIP := some "", pathname := "/x", token := none } 0) ∧
    ((runRequests
        { rateLimiter := { windowMs := 60000, maxRequests := 30, records := [], lastCleanup := 0 },
          authFailLimiter := { windowMs := 900000, maxRequests := 5, records := [], lastCleanup := 0 } }
        { ACCESS_TOKEN := some "s", hasYamlStorage := true }
        (({ req := { cfConnectingIP := none, pathname := "/x", token := none }, now := 0 } : ReqAt) ::
          (List.range 30).map (fun i =>
            ({ req := { cfConnectingIP := some "", pathname := "/x", token := none },
               now := (i : Int) + 1 } : ReqAt)))).1.map (fun o => o != Outcome.rateLimited) =
      List.replicate 30 true ++ [false]) := by
  constructor
  · exact (claim_C9_unknown_key_shared.1
      { rateLimiter := { windowMs := 60000, maxRequests := 30, records := [], lastCleanup := 0 },
        authFailLimiter := { windowMs := 900000, maxRequests := 5, records := [], lastCleanup := 0 } }
      { ACCESS_TOKEN := some "s", hasYamlStorage := true } "/x" none 0).1
  · exact claim_C9_unknown_key_shared.2
      { rateLimiter := { windowMs := 60000, maxRequests := 30, records := [], lastCleanup := 0 },
        authFailLimiter := { windowMs := 900000, maxRequests := 5, records := [], lastCleanup := 0 } }
      { ACCESS_TOKEN := some "s", hasYamlStorage := true }
      { req := { cfConnectingIP := none, pathname := "/x", token := none }, now := 0 }
      ((List.range 30).map (fun i =>
        ({ req := { cfConnectingIP := some "", pathname := "/x", token := none },
           now := (i : Int) + 1 } : ReqAt)))
      rfl rfl rfl (by decide) (by decide) (by decide)

/-- C2: on an existing record with no active ban whose window has expired
(`elapsed ≥ windowMs`), `checkAndIncrement` slides the window by
`windowsToSlide = floor(elapsed / windowMs) ≥ 1`: when it equals 1 the
previous count becomes the old current count and the current count resets,
otherwise both reset; `windowStart` advances by `windowsToSlide *
windowMs`; and the admission decision compares `maxRequests` against
`weighted = floor(prevCount' * max(0, 1 - elapsed'/windowMs) + currCount')`
with `elapsed'` recomputed against the new `windowStart`. -/
theorem claim_C2_window_slide (l : RateLimiter) (key : String) (now : Int) (r : Record)
    (hw : 0 < l.windowMs)
    (hget : mapGet (l._cleanup now).records key = some r)
    (hact : banActive r.bannedUntil now = false)
    (helapsed : (l.windowMs : Int) ≤ now - r.windowStart) :
    let windowsToSlide : Int := (now - r.windowStart).fdiv (l.windowMs : Int)
    let windowStart' : Int := r.windowStart + windowsToSlide * (l.windowMs : Int)
    let prevCount' : Nat := if windowsToSlide = 1 then r.currCount else 0
    let currCount' : Nat := 0
    let weighted : Int :=
      ⌊(prevCount' : ℚ) * max 0 (1 - ((now - windowStart' : Int) : ℚ) / (l.windowMs : ℚ)) +
        (currCount' : ℚ)⌋
    1 ≤ windowsToSlide ∧
    (l.checkAndIncrement key now).1 = decide (weighted < (l.maxRequests : Int)) ∧
    ∃ r2 : Record, mapGet (l.checkAndIncrement key now).2.records key = some r2 ∧
      r2.prevCount = prevCount' ∧ r2.windowStart = windowStart' ∧
      r2.currCount = (if weighted < (l.maxRequests : Int) then 1 else 0) := by
  intro windowsToSlide windowStart' prevCount' currCount' weighted
  obtain ⟨hf1, hf2, hf3⟩ :=
    fdiv_bounds (now - r.windowStart) (l.windowMs : Int) (by exact_mod_cast hw) helapsed
  have hslide : ∀ rc : Record, rc.prevCount = r.prevCount → rc.currCount = r.currCount →
      rc.windowStart = r.windowStart →
      slideIfExpired (l._cleanup now).windowMs rc now =
        ⟨prevCount', 0, windowStart', rc.bannedUntil⟩ := by
    intro rc hp hc hws
    rw [cleanup_windowMs]
    rw [slideIfExpired_of_le l.windowMs rc now (by rw [hws]; exact helapsed)]
    rw [hws, hc]
  have heq := checkAndIncrement_not_banned_eq l key now r hget hact
  have hbranch : now - windowStart' < (l.windowMs : Int) := by
    show now - (r.windowStart + (now - r.windowStart).fdiv (l.windowMs : Int) * (l.windowMs : Int)) <
      (l.windowMs : Int)
    linarith [hf3]
  refine ⟨hf1, ?_⟩
  by_cases hbe : banExpiredSet r.bannedUntil now = true
  · rw [heq]
    dsimp only
    rw [hbe]
    simp only [if_true]
    rw [hslide { r with bannedUntil := none } rfl rfl rfl]
    have hwc : (l._cleanup now)._getWeightedCount
        ⟨prevCount', 0, windowStart', ({ r with bannedUntil := none } : Record).bannedUntil⟩ now =
        weighted := by
      rw [getWeightedCount_cleanup]
      unfold RateLimiter._getWeightedCount
      dsimp only
      rw [if_pos hbranch]
    rw [hwc]
    simp only [cleanup_maxRequests]
    by_cases hcond : (l.maxRequests : Int) ≤ weighted
    · rw [if_pos hcond]
      refine ⟨by simp; omega, ⟨prevCount', 0, windowStart', none⟩, mapGet_mapSet_self _ _ _,
        rfl, rfl, ?_⟩
      rw [if_neg (by omega)]
    · rw [if_neg hcond]
      refine ⟨by simp; omega, ⟨prevCount', 0 + 1, windowStart', none⟩, mapGet_mapSet_self _ _ _,
        rfl, rfl, ?_⟩
      rw [if_pos (by omega)]
  · rw [heq]
    dsimp only
    rw [if_neg hbe]
    rw [hslide r rfl rfl rfl]
    have hwc : (l._cleanup now)._getWeightedCount
        ⟨prevCount', 0, windowStart', r.bannedUntil⟩ now = weighted := by
      rw [getWeightedCount_cleanup]
      unfold RateLimiter._getWeightedCount
      dsimp only
      rw [if_pos hbranch]
    rw [hwc]
    simp only [cleanup_maxRequests]
    by_cases hcond : (l.maxRequests : Int) ≤ weighted
    · rw [if_pos hcond]
      refine ⟨by simp; omega, ⟨prevCount', 0, windowStart', r.bannedUntil⟩,
        mapGet_mapSet_self _ _ _, rfl, rfl, ?_⟩
      rw [if_neg (by omega)]
    · rw [if_neg hcond]
      refine ⟨by simp; omega, ⟨prevCount', 0 + 1, windowStart', r.bannedUntil⟩,
        mapGet_mapSet_self _ _ _, rfl, rfl, ?_⟩
      rw [if_pos (by omega)]

theorem claim_C2_window_slide_witness :
    (1 : Int) ≤ (17 - 0 : Int).fdiv (10 : Int) ∧
    (RateLimiter.checkAndIncrement
        { windowMs := 10, maxRequests := 3, records := [("k", ⟨4, 2, 0, none⟩)], lastCleanup := 0 }
        "k" 17).1 = true ∧
    ∃ r2 : Record, mapGet (RateLimiter.checkAndIncrement
        { windowMs := 10, maxRequests := 3, records := [("k", ⟨4, 2, 0, none⟩)], lastCleanup := 0 }
        "k" 17).2.records "k" = some r2 ∧
      r2.prevCount = 2 ∧ r2.windowStart = 10 ∧ r2.currCount = 1 := by
  have h := claim_C2_window_slide
    { windowMs := 10, maxRequests := 3, records := [("k", ⟨4, 2, 0, none⟩)], lastCleanup := 0 }
    "k" 17 ⟨4, 2, 0, none⟩ (by decide) (by with_unfolding_all rfl) rfl (by decide)
  obtain ⟨h1, h2, r2, hr2, hp, hws, hc⟩ := h
  refine ⟨h1, ?_, r2, hr2, ?_, ?_, ?_⟩
  · rw [h2]
    with_unfolding_all rfl
  · rw [hp]
    with_unfolding_all rfl
  · rw [hws]
    with_unfolding_all rfl
  · rw [hc]
    with_unfolding_all rfl

end JmsGateway
